import Mathlib

/-!
# rukpak: bundle source resolvers and the helm provisioner

A shallow embedding of

* `internal/source/configmaps.go` (`ConfigMaps.Unpack`),
* `internal/source/pvc.go` (`PersistentVolumeClaim.Unpack` and its helpers),
* `internal/provisioner/helm/helm.go` (`ParseConfig`, `HandleBundleDeployment`),
* `internal/provisioner/helm/controllers/util.go` (`parseConfig`, `MapToDeployNamespace`),

followed by theorems about them.

Conventions of the embedding.

* Go's `string` and `[]byte` are both byte sequences; both are embedded as `String`
  and the conversions `[]byte(s)` and `string(b)` are the identity.
* A Go `map[string]V` is an association list `List (String × V)`; `GoMap.set` is
  `m[k] = v`, `GoMap.get?` is the two-valued lookup `v, ok := m[k]`.  The order in
  which a `range` loop visits a map is not specified by Go: every `range` over a map
  goes through a function `rng` that picks the order, and the theorems hold for every
  `rng` that returns a permutation of its argument.
* A Go function returning `(T, error)` returns `Except String T`, the string being
  the error's message.
* Calls to the cluster (reads, writes, log streams) and to the chart loader are
  answered by functions held in the receiver structures, and every such call is
  appended to a trace of `Call`s which the embedded function returns next to its
  result.
-/

set_option autoImplicit false

namespace Rukpak

/-! ## Go runtime and standard library -/

/-- Go's `[]byte`. -/
abbrev Bytes := String

/-- Go's `map[string]V`, as an association list. -/
abbrev GoMap (V : Type) := List (String × V)

/-- The two-valued map read `v, ok := m[k]`. -/
def GoMap.get? {V : Type} (m : GoMap V) (k : String) : Option V :=
  match m with
  | [] => none
  | (k1, v1) :: rest => if k1 = k then some v1 else GoMap.get? rest k

/-- The map write `m[k] = v`: the value of an existing key is replaced, a new key is added. -/
def GoMap.set {V : Type} (m : GoMap V) (k : String) (v : V) : GoMap V :=
  match m with
  | [] => [(k, v)]
  | (k1, v1) :: rest => if k1 = k then (k, v) :: rest else (k1, v1) :: GoMap.set rest k v

/-- The keys of a map. -/
def GoMap.keys {V : Type} (m : GoMap V) : List String := m.map Prod.fst

/-- The order in which a `range` loop visits the entries of a map. -/
abbrev RangeOrder := GoMap Bytes → GoMap Bytes

/-- The hexadecimal digit of `strconv` for a number below sixteen. -/
def lowerhex (n : Nat) : Char :=
  "0123456789abcdef".data.getD n '0'

/-- One character as `strconv.Quote` writes it between the double quotes.  The double
quote and the backslash get a backslash; the printable ASCII characters are copied; the
control characters of ASCII are written as the escapes `a b f n r t v` after a backslash,
or as a backslash, `x` and two hexadecimal digits.  A character above U+007F is copied,
which is what `strconv.Quote` does for the printable ones (`unicode.IsPrint`); the
embedding is exact for ASCII text. -/
def quoteChar (c : Char) : List Char :=
  if c = Char.ofNat 34 ∨ c = Char.ofNat 92 then [Char.ofNat 92, c]
  else if c.toNat = 7 then [Char.ofNat 92, 'a']
  else if c.toNat = 8 then [Char.ofNat 92, 'b']
  else if c.toNat = 12 then [Char.ofNat 92, 'f']
  else if c.toNat = 10 then [Char.ofNat 92, 'n']
  else if c.toNat = 13 then [Char.ofNat 92, 'r']
  else if c.toNat = 9 then [Char.ofNat 92, 't']
  else if c.toNat = 11 then [Char.ofNat 92, 'v']
  else if c.toNat < 32 ∨ c.toNat = 127 then
    [Char.ofNat 92, 'x', lowerhex (c.toNat / 16), lowerhex (c.toNat % 16)]
  else [c]

/-- Characters of `strconv.Quote` (the `%q` verb), one character after the other. -/
def quoteChars : List Char → List Char
  | [] => []
  | c :: cs => quoteChar c ++ quoteChars cs

/-- The `%q` verb of `fmt` on a string: the characters as `quoteChar` writes them, between
double quotes.  Exact for ASCII text. -/
def quote (s : String) : String :=
  String.mk (Char.ofNat 34 :: (quoteChars s.data ++ [Char.ofNat 34]))

/-- Text of ASCII characters only. -/
def isASCII (s : String) : Prop := ∀ c ∈ s.data, c.toNat < 128

/-- The elements of a path between its separators (`/`). -/
def splitSlash : List Char → List (List Char)
  | [] => [[]]
  | c :: cs =>
    if c = '/' then [] :: splitSlash cs
    else
      match splitSlash cs with
      | [] => [[c]]
      | x :: xs => (c :: x) :: xs

/-- The loop of `filepath.Clean`, one path element at a time.  `elems` holds the real
elements written so far, last one first; `dots` counts the leading `..` elements of an
unrooted path, which a later `..` cannot remove.
An empty element and a `.` element are dropped; a `..` element removes the last real
element when there is one, is kept in front of an unrooted path otherwise, and is
dropped at the root; any other element is appended. -/
def cleanLoop (rooted : Bool) : List (List Char) → Nat → List (List Char) → Nat × List (List Char)
  | [], dots, elems => (dots, elems)
  | e :: es, dots, elems =>
    if e = [] then cleanLoop rooted es dots elems
    else if e = ['.'] then cleanLoop rooted es dots elems
    else if e = ['.', '.'] then
      match elems with
      | _ :: below => cleanLoop rooted es dots below
      | [] => if rooted then cleanLoop rooted es dots [] else cleanLoop rooted es (dots + 1) []
    else cleanLoop rooted es dots (e :: elems)

/-- Go's `filepath.Clean` (Unix): the shortest path equivalent to `path` by purely
lexical processing.  The empty path becomes `.`. -/
def Clean (path : String) : String :=
  let rooted := path.data.head? = some '/'
  let (dots, elems) := cleanLoop rooted (splitSlash path.data) 0 []
  let out := List.intercalate ['/'] (List.replicate dots ['.', '.'] ++ elems.reverse)
  if rooted then String.mk ('/' :: out)
  else if out = [] then "."
  else String.mk out

/-- Go's `filepath.Join` of two elements: empty elements are ignored, the others are
joined with a separator and the result is cleaned; the join of two empty elements is
the empty string. -/
def Join (a b : String) : String :=
  if a ≠ "" then Clean (a ++ "/" ++ b)
  else if b ≠ "" then Clean b
  else ""

/-! ## API types (`api/v1alpha1`, `k8s.io/api/core/v1`) -/

/-- A reference to an object in the same namespace. -/
structure LocalObjectReference where
  Name : String
  deriving DecidableEq, Repr

/-- One entry of a `configMaps` source: the config map and the directory its files go to. -/
structure ConfigMapSource where
  ConfigMap : LocalObjectReference
  Path : String
  deriving DecidableEq, Repr

/-- The `persistentVolumeClaim` source: the name of the claim. -/
structure PersistentVolumeClaimSource where
  Name : String
  deriving DecidableEq, Repr

/-- The source of a bundle.  `SourceType` is the Go field `Type`; a slice or pointer
that is `nil` is `none`. -/
structure BundleSource where
  SourceType : String
  ConfigMaps : Option (List ConfigMapSource)
  PersistentVolumeClaim : Option PersistentVolumeClaimSource
  deriving DecidableEq, Repr

/-- The specification of a bundle. -/
structure BundleSpec where
  Source : BundleSource
  deriving DecidableEq, Repr

/-- A `Bundle` object: its type and object metadata, and its specification. -/
structure Bundle where
  APIVersion : String
  Kind : String
  Name : String
  UID : String
  Spec : BundleSpec
  deriving DecidableEq, Repr

/-- Modelled from the spec: the source kind `ConfigMaps` of the declared source kinds
(the constant `SourceTypeConfigMaps` of `api/v1alpha1`). -/
def SourceTypeConfigMaps : String := "ConfigMaps"

/-- Modelled from the spec: the source kind `PersistentVolumeClaim` of the declared
source kinds (the constant `SourceTypePersistentVolumeClaim` of `api/v1alpha1`). -/
def SourceTypePersistentVolumeClaim : String := "PersistentVolumeClaim"

/-- `BundleSource.DeepCopy`: a copy that shares nothing with the original; on values
it is the identity. -/
def BundleSource.DeepCopy (s : BundleSource) : BundleSource := s

/-- A `corev1.ConfigMap`: textual data, binary data and the immutable flag (`*bool`). -/
structure ConfigMap where
  Data : GoMap String
  BinaryData : GoMap Bytes
  Immutable : Option Bool
  deriving DecidableEq, Repr

/-- A call made to the cluster or to the chart loader. -/
inductive Call where
  | getConfigMap (ns name : String)
  | createOrRecreate (ns name : String)
  | delete (ns name : String)
  | getLogs (ns name : String)
  | getChart
  deriving DecidableEq, Repr

/-! ## Package `source`: the result of an unpack -/

namespace Source

/-- Modelled from the spec: the states of a `Result`, one of Pending, Unpacking,
Unpacked (the type `State` and its constants are declared in `unpacker.go`). -/
inductive State where
  | StatePending
  | StateUnpacking
  | StateUnpacked
  deriving DecidableEq, Repr

/-- A filesystem tree (`fs.FS`): the files by path.  `fstest.MapFS` is this map, each
`MapFile` holding its `Data` only. -/
abbrev FS := GoMap Bytes

/-- Modelled from the spec: the `Result` of an unpack (declared in `unpacker.go`):
content, resolved source, state and message; unset content and unset resolved source
are `none`. -/
structure Result where
  Bundle : Option FS := none
  ResolvedSource : Option BundleSource := none
  State : State
  Message : String := ""
  deriving DecidableEq, Repr

/-! ## `configmaps.go` -/

/-- The reader of the `ConfigMaps` resolver: `Get` answers a read of the config map
`name` in namespace `ns`. -/
structure Reader where
  Get : (ns name : String) → Except String ConfigMap

/-- The `ConfigMaps` resolver. -/
structure ConfigMaps where
  Reader : Reader
  ConfigMapNamespace : String

/-- Lines 57-63 of `Unpack`: the textual data, then the binary data, written into one
map `files`. -/
def mergeFiles (rng : RangeOrder) (cm : ConfigMap) : GoMap Bytes :=
  let files := (rng cm.Data).foldl (fun files kv => GoMap.set files kv.1 kv.2) []
  (rng cm.BinaryData).foldl (fun files kv => GoMap.set files kv.1 kv.2) files

/-- Lines 66-78 of `Unpack`: the loop over `files` of one entry.  A path already in
`seenFilepaths` is an error; otherwise the path is recorded and the file written. -/
def unpackFiles (o : ConfigMaps) (cmName dir : String) :
    List (String × Bytes) → GoMap String → FS → Except String (GoMap String × FS)
  | [], seenFilepaths, bundleFS => .ok (seenFilepaths, bundleFS)
  | (filename, data) :: rest, seenFilepaths, bundleFS =>
    let filepath := Join dir filename
    match GoMap.get? seenFilepaths filepath with
    | some existingCmName =>
      .error ("configmap " ++ o.ConfigMapNamespace ++ "/" ++ cmName ++ " contains path "
        ++ quote filepath ++ " which is already referenced by configmap "
        ++ o.ConfigMapNamespace ++ "/" ++ existingCmName)
    | none =>
      unpackFiles o cmName dir rest (GoMap.set seenFilepaths filepath cmName)
        (GoMap.set bundleFS filepath data)

/-- Lines 31-79 of `Unpack`: the loop over the entries.  Each entry reads its config
map, checks the immutable flag, merges the data and writes the files; `seenFilepaths`
is a new empty map in every iteration (line 65). -/
def unpackSources (o : ConfigMaps) (rng : RangeOrder) :
    List ConfigMapSource → FS → List Call → Except String FS × List Call
  | [], bundleFS, tr => (.ok bundleFS, tr)
  | cmSource :: rest, bundleFS, tr =>
    let cmName := cmSource.ConfigMap.Name
    let dir := Clean cmSource.Path
    let tr := tr ++ [Call.getConfigMap o.ConfigMapNamespace cmName]
    match o.Reader.Get o.ConfigMapNamespace cmName with
    | .error err =>
      (.error ("get configmap " ++ o.ConfigMapNamespace ++ "/" ++ cmName ++ ": " ++ err), tr)
    | .ok cm =>
      if cm.Immutable = none ∨ cm.Immutable = some false then
        (.error ("configmap " ++ o.ConfigMapNamespace ++ "/" ++ cmName
          ++ " is not immutable: all bundle configmaps must be immutable"), tr)
      else
        let files := mergeFiles rng cm
        match unpackFiles o cmName dir (rng files) [] bundleFS with
        | .error e => (.error e, tr)
        | .ok (_, bundleFS) => unpackSources o rng rest bundleFS tr

/-- `ConfigMaps.Unpack`: the result, and the calls made. -/
def ConfigMaps.Unpack (o : ConfigMaps) (rng : RangeOrder) (bundle : Bundle) :
    Except String Result × List Call :=
  if bundle.Spec.Source.SourceType ≠ SourceTypeConfigMaps then
    (.error ("bundle source type " ++ quote bundle.Spec.Source.SourceType ++ " not supported"), [])
  else
    match bundle.Spec.Source.ConfigMaps with
    | none => (.error "bundle source configmaps configuration is unset", [])
    | some configMapSources =>
      match unpackSources o rng configMapSources [] [] with
      | (.error e, tr) => (.error e, tr)
      | (.ok bundleFS, tr) =>
        let resolvedSource : BundleSource :=
          { SourceType := SourceTypeConfigMaps
            ConfigMaps := bundle.Spec.Source.DeepCopy.ConfigMaps
            PersistentVolumeClaim := none }
        (.ok { Bundle := some bundleFS, ResolvedSource := some resolvedSource,
               State := State.StateUnpacked }, tr)

/-- The data units of an entry: the textual and the binary data of the config map it
references (none when the read fails). -/
def dataUnits (o : ConfigMaps) (e : ConfigMapSource) : List (String × Bytes) :=
  match o.Reader.Get o.ConfigMapNamespace e.ConfigMap.Name with
  | .ok cm => cm.Data ++ cm.BinaryData
  | .error _ => []

/-- The files of one entry at their final paths: the cleaned destination path of the
entry joined with each data key, with the bytes of the data unit. -/
def entryFiles (o : ConfigMaps) (e : ConfigMapSource) : List (String × Bytes) :=
  (dataUnits o e).map fun kv => (Join (Clean e.Path) kv.1, kv.2)

/-- The files of all entries at their final paths. -/
def expectedFiles (o : ConfigMaps) : List ConfigMapSource → List (String × Bytes)
  | [] => []
  | e :: rest => entryFiles o e ++ expectedFiles o rest

/-- The reads of the config maps of the entries, in their order. -/
def readCalls (o : ConfigMaps) (entries : List ConfigMapSource) : List Call :=
  entries.map fun e => Call.getConfigMap o.ConfigMapNamespace e.ConfigMap.Name

/-! ## `pvc.go` -/

/-- A `metav1.OwnerReference`. -/
structure OwnerReference where
  APIVersion : String
  Kind : String
  Name : String
  UID : String
  Controller : Option Bool
  BlockOwnerDeletion : Option Bool
  deriving DecidableEq, Repr

/-- A `corev1.VolumeMount`. -/
structure VolumeMount where
  Name : String
  MountPath : String
  ReadOnly : Bool := false
  deriving DecidableEq, Repr

/-- A `corev1.Container`: the fields `ensureUnpackPod` writes, and `Args` for the fields
it leaves as they are. -/
structure Container where
  Name : String := ""
  Image : String := ""
  ImagePullPolicy : String := ""
  Command : List String := []
  Args : List String := []
  VolumeMounts : List VolumeMount := []
  deriving DecidableEq, Repr

/-- A `corev1.PersistentVolumeClaimVolumeSource`. -/
structure PersistentVolumeClaimVolumeSource where
  ClaimName : String
  ReadOnly : Bool
  deriving DecidableEq, Repr

/-- A `corev1.Volume` whose source, when set, is a volume claim. -/
structure Volume where
  Name : String
  PersistentVolumeClaim : Option PersistentVolumeClaimVolumeSource
  deriving DecidableEq, Repr

/-- A `corev1.PodSpec`. -/
structure PodSpec where
  AutomountServiceAccountToken : Option Bool := none
  RestartPolicy : String := ""
  Containers : List Container := []
  Volumes : List Volume := []
  deriving DecidableEq, Repr

/-- A `corev1.ContainerStatus`. -/
structure ContainerStatus where
  Name : String
  ImageID : String
  deriving DecidableEq, Repr

/-- A `corev1.PodStatus`; `Phase` is the string type `corev1.PodPhase`. -/
structure PodStatus where
  Phase : String := ""
  ContainerStatuses : List ContainerStatus := []
  deriving DecidableEq, Repr

/-- A `corev1.Pod`; `&corev1.Pod{}` is the value with every field at its default. -/
structure Pod where
  Name : String := ""
  Namespace : String := ""
  Labels : GoMap String := []
  OwnerReferences : List OwnerReference := []
  DeletionTimestamp : Option String := none
  Spec : PodSpec := {}
  Status : PodStatus := {}
  deriving DecidableEq, Repr

/-- The phase `corev1.PodPending`. -/
def PodPending : String := "Pending"

/-- The phase `corev1.PodRunning`. -/
def PodRunning : String := "Running"

/-- The phase `corev1.PodSucceeded`. -/
def PodSucceeded : String := "Succeeded"

/-- The phase `corev1.PodFailed`. -/
def PodFailed : String := "Failed"

/-- The restart policy `corev1.RestartPolicyNever`. -/
def RestartPolicyNever : String := "Never"

/-- The pull policy `corev1.PullIfNotPresent`. -/
def PullIfNotPresent : String := "IfNotPresent"

/-- The `controllerutil.OperationResult` values. -/
inductive OperationResult where
  | OperationResultNone
  | OperationResultCreated
  | OperationResultUpdated
  | OperationResultUpdatedStatus
  | OperationResultUpdatedStatusOnly
  deriving DecidableEq, Repr

/-- The answer of the cluster to a request for the log stream of a pod: the stream
cannot be opened, reading it fails, or it delivers its bytes. -/
inductive LogStream where
  | openError (err : String)
  | readError (err : String)
  | data (logs : Bytes)
  deriving DecidableEq, Repr

/-- The `client.Client` of the resolver: `Delete` answers the deletion of a pod with an
error or with none. -/
structure Client where
  Delete : Pod → Option String

/-- The `kubernetes.Interface` of the resolver: the log stream of the pod `name` in
namespace `ns`. -/
structure KubeClient where
  GetLogs : (ns name : String) → LogStream

/-- What `pvc.go` uses and this development does not define: the package
`internal/util` (`PodName`, the label keys, `CreateOrRecreate`, which gets the pod and
the function that sets its fields and answers with the operation result and the pod as
it then is), the container name and the message of the pending result of `image.go`,
and the decoders of the payload (`json.Unmarshal` into the struct with the base64 field
`content`, `gzip.NewReader`, `tarfs.New`). -/
structure Deps where
  PodName : String → String → String
  CoreOwnerKindKey : String
  CoreOwnerNameKey : String
  CreateOrRecreate : Pod → (Pod → Except String Pod) → Except String OperationResult × Pod
  imageBundleUnpackContainerName : String
  pendingMessage : Pod → String
  jsonUnmarshalContent : Bytes → Except String Bytes
  gzipNewReader : Bytes → Except String Bytes
  tarfsNew : Bytes → Except String FS

/-- The `PersistentVolumeClaim` resolver. -/
structure PersistentVolumeClaim where
  Client : Client
  KubeClient : KubeClient
  ProvisionerName : String
  PodNamespace : String
  UnpackImage : String

/-- The constant `pvcBundleUnpackContainerName`. -/
def pvcBundleUnpackContainerName : String := "bundle"

/-- A `schema.GroupVersion`. -/
structure GroupVersion where
  Group : String
  Version : String
  deriving DecidableEq, Repr

/-- A `schema.GroupVersionKind`. -/
structure GroupVersionKind where
  Group : String
  Version : String
  Kind : String
  deriving DecidableEq, Repr

/-- The function `schema.ParseGroupVersion`: the empty string and `/` are the empty group
and version; a string without `/` is a version; a string with one `/` is the group before
it and the version after it; a string with more is an error. -/
def ParseGroupVersion (gv : String) : Except String GroupVersion :=
  if gv.data.length = 0 ∨ gv = "/" then .ok { Group := "", Version := "" }
  else
    match (gv.data.filter fun c => c = '/').length with
    | 0 => .ok { Group := "", Version := gv }
    | 1 =>
      .ok { Group := String.mk (gv.data.takeWhile fun c => c ≠ '/')
            Version := String.mk ((gv.data.dropWhile fun c => c ≠ '/').drop 1) }
    | _ => .error ("unexpected GroupVersion string: " ++ gv)

/-- The function `schema.FromAPIVersionAndKind`: group and version as parsed from the API
version, both empty when it does not parse. -/
def FromAPIVersionAndKind (apiVersion kind : String) : GroupVersionKind :=
  match ParseGroupVersion apiVersion with
  | .ok gv => { Group := gv.Group, Version := gv.Version, Kind := kind }
  | .error _ => { Group := "", Version := "", Kind := kind }

/-- The method `GroupVersionKind` of the type metadata of a bundle. -/
def GroupVersionKindOf (bundle : Bundle) : GroupVersionKind :=
  FromAPIVersionAndKind bundle.APIVersion bundle.Kind

/-- The method `GroupVersionKind.GroupVersion`. -/
def GroupVersionKind.GroupVersion (gvk : GroupVersionKind) : GroupVersion :=
  { Group := gvk.Group, Version := gvk.Version }

/-- The method `GroupVersion.String`: `group/version`, or the version alone when the group
is empty. -/
def GroupVersion.asString (gv : GroupVersion) : String :=
  if gv.Group.data.length > 0 then gv.Group ++ "/" ++ gv.Version else gv.Version

/-- The function `metav1.NewControllerRef(owner, gvk)`. -/
def NewControllerRef (owner : Bundle) (gvk : GroupVersionKind) : OwnerReference :=
  { APIVersion := gvk.GroupVersion.asString, Kind := gvk.Kind, Name := owner.Name
    UID := owner.UID, Controller := some true, BlockOwnerDeletion := some true }

/-- Modelled from the spec: `pendingImagePodResult` of `image.go`, which returns `Pending`
with a diagnostic message. -/
def pendingImagePodResult (d : Deps) (pod : Pod) : Result :=
  { State := State.StatePending, Message := d.pendingMessage pod }

/-- The function literal passed to `util.CreateOrRecreate` in `ensureUnpackPod`
(lines 68-94): it sets the fields of the pod.  Reading the claim name of a bundle
without a volume claim source is a nil dereference, here an error. -/
def ensureUnpackPodMutate (i : PersistentVolumeClaim) (d : Deps) (bundle : Bundle) (pod : Pod) :
    Except String Pod :=
  let controllerRef := NewControllerRef bundle (GroupVersionKindOf bundle)
  let automountServiceAccountToken := false
  let pod := { pod with Labels := GoMap.set [(d.CoreOwnerKindKey, bundle.Kind)] d.CoreOwnerNameKey bundle.Name }
  let pod := { pod with OwnerReferences := [controllerRef] }
  let pod := { pod with Spec.AutomountServiceAccountToken := some automountServiceAccountToken }
  let pod := { pod with Spec.RestartPolicy := RestartPolicyNever }
  let c0 : Container :=
    match pod.Spec.Containers with
    | [c] => c
    | _ => {}
  let c0 := { c0 with
    Name := d.imageBundleUnpackContainerName
    Image := i.UnpackImage
    ImagePullPolicy := PullIfNotPresent
    Command := ["/unpack", "--bundle-dir", "/bundle"]
    VolumeMounts := [{ Name := "bundle", MountPath := "/bundle" }] }
  let pod := { pod with Spec.Containers := [c0] }
  match bundle.Spec.Source.PersistentVolumeClaim with
  | none => .error "invalid memory address or nil pointer dereference"
  | some claim =>
    .ok { pod with Spec.Volumes :=
      [{ Name := "bundle"
         PersistentVolumeClaim := some { ClaimName := claim.Name, ReadOnly := true } }] }

/-- `PersistentVolumeClaim.ensureUnpackPod`: the operation result of
`util.CreateOrRecreate`, the pod as it then is, and the calls made. -/
def PersistentVolumeClaim.ensureUnpackPod (i : PersistentVolumeClaim) (d : Deps) (bundle : Bundle)
    (pod : Pod) : (Except String OperationResult × Pod) × List Call :=
  let pod := { pod with Name := d.PodName i.ProvisionerName bundle.Name }
  let pod := { pod with Namespace := i.PodNamespace }
  (d.CreateOrRecreate pod (ensureUnpackPodMutate i d bundle),
    [Call.createOrRecreate pod.Namespace pod.Name])

/-- `PersistentVolumeClaim.getPodLogs`. -/
def PersistentVolumeClaim.getPodLogs (i : PersistentVolumeClaim) (pod : Pod) :
    Except String Bytes × List Call :=
  match i.KubeClient.GetLogs pod.Namespace pod.Name with
  | .openError err => (.error ("get pod logs: " ++ err), [Call.getLogs pod.Namespace pod.Name])
  | .readError err => (.error err, [Call.getLogs pod.Namespace pod.Name])
  | .data logs => (.ok logs, [Call.getLogs pod.Namespace pod.Name])

/-- `PersistentVolumeClaim.failedPodResult`: the error, and the calls made. -/
def PersistentVolumeClaim.failedPodResult (i : PersistentVolumeClaim) (pod : Pod) :
    String × List Call :=
  match i.getPodLogs pod with
  | (.error err, tr) => ("unpack failed: failed to retrieve failed pod logs: " ++ err, tr)
  | (.ok logs, tr) =>
    let _ := i.Client.Delete pod
    ("unpack failed: " ++ logs, tr ++ [Call.delete pod.Namespace pod.Name])

/-- `PersistentVolumeClaim.getBundleContents`. -/
def PersistentVolumeClaim.getBundleContents (i : PersistentVolumeClaim) (d : Deps) (pod : Pod) :
    Except String FS × List Call :=
  match i.getPodLogs pod with
  | (.error err, tr) => (.error ("get bundle contents: " ++ err), tr)
  | (.ok bundleData, tr) =>
    match d.jsonUnmarshalContent bundleData with
    | .error err => (.error ("parse bundle data: " ++ err), tr)
    | .ok content =>
      match d.gzipNewReader content with
      | .error err => (.error ("read bundle content gzip: " ++ err), tr)
      | .ok gzr => (d.tarfsNew gzr, tr)

/-- `PersistentVolumeClaim.succeededPodResult`. -/
def PersistentVolumeClaim.succeededPodResult (i : PersistentVolumeClaim) (d : Deps)
    (bundle : Bundle) (pod : Pod) : Except String Result × List Call :=
  match i.getBundleContents d pod with
  | (.error err, tr) => (.error ("get bundle contents: " ++ err), tr)
  | (.ok bundleFS, tr) =>
    let resolvedSource := bundle.Spec.Source.DeepCopy
    (.ok { Bundle := some bundleFS, ResolvedSource := some resolvedSource,
           State := State.StateUnpacked }, tr)

/-- `PersistentVolumeClaim.getBundleImageDigest`. -/
def PersistentVolumeClaim.getBundleImageDigest (d : Deps) (pod : Pod) : Except String String :=
  match pod.Status.ContainerStatuses.find?
      (fun ps => ps.Name = d.imageBundleUnpackContainerName ∧ ps.ImageID ≠ "") with
  | some ps => .ok ps.ImageID
  | none => .error "bundle image digest not found"

/-- `PersistentVolumeClaim.handleUnexpectedPod`: the error, and the calls made. -/
def PersistentVolumeClaim.handleUnexpectedPod (i : PersistentVolumeClaim) (pod : Pod) :
    String × List Call :=
  let _ := i.Client.Delete pod
  ("unexpected pod phase: " ++ pod.Status.Phase, [Call.delete pod.Namespace pod.Name])

/-- `PersistentVolumeClaim.Unpack`: the result, and the calls made. -/
def PersistentVolumeClaim.Unpack (i : PersistentVolumeClaim) (d : Deps) (bundle : Bundle) :
    Except String Result × List Call :=
  if bundle.Spec.Source.SourceType ≠ SourceTypePersistentVolumeClaim then
    (.error ("bundle source type " ++ quote bundle.Spec.Source.SourceType ++ " not supported"), [])
  else if bundle.Spec.Source.PersistentVolumeClaim = none then
    (.error "bundle source persistentVolumeClaim configuration is unset", [])
  else
    let pod : Pod := {}
    match i.ensureUnpackPod d bundle pod with
    | ((.error err, _), tr) => (.error err, tr)
    | ((.ok op, pod), tr) =>
      if op = OperationResult.OperationResultCreated ∨ op = OperationResult.OperationResultUpdated
          ∨ pod.DeletionTimestamp ≠ none then
        (.ok { State := State.StatePending }, tr)
      else
        let phase := pod.Status.Phase
        if phase = PodPending then (.ok (pendingImagePodResult d pod), tr)
        else if phase = PodRunning then (.ok { State := State.StateUnpacking }, tr)
        else if phase = PodFailed then
          let (err, tr2) := i.failedPodResult pod
          (.error err, tr ++ tr2)
        else if phase = PodSucceeded then
          let (res, tr2) := i.succeededPodResult d bundle pod
          (res, tr ++ tr2)
        else
          let (err, tr2) := i.handleUnexpectedPod pod
          (.error err, tr ++ tr2)

/-- The pod `Unpack` hands to `util.CreateOrRecreate`: the empty pod with the name and
the namespace of the worker. -/
def workerKey (i : PersistentVolumeClaim) (d : Deps) (bundle : Bundle) : Pod :=
  { Name := d.PodName i.ProvisionerName bundle.Name, Namespace := i.PodNamespace }

/-- The answer of the ensure step of `Unpack`: the operation result (or the error) of
`util.CreateOrRecreate` and the worker as observed. -/
def ensured (i : PersistentVolumeClaim) (d : Deps) (bundle : Bundle) :
    Except String OperationResult × Pod :=
  d.CreateOrRecreate (workerKey i d bundle) (ensureUnpackPodMutate i d bundle)

/-- The call of the ensure step. -/
def ensureCall (i : PersistentVolumeClaim) (d : Deps) (bundle : Bundle) : Call :=
  Call.createOrRecreate i.PodNamespace (d.PodName i.ProvisionerName bundle.Name)

end Source

/-! ## Package `helm`: `helm.go` -/

namespace Helm

/-- A JSON value. -/
inductive JSON where
  | null
  | bool (b : Bool)
  | number (n : Int)
  | string (s : String)
  | array (items : List JSON)
  | object (fields : List (String × JSON))

/-- A `runtime.RawExtension`: no raw bytes at all, raw bytes that are not JSON, or raw
bytes that are the serialization of a JSON value. -/
inductive RawExtension where
  | unset
  | malformed (raw : Bytes)
  | json (v : JSON)

/-- The specification of a bundle deployment: its configuration. -/
structure BundleDeploymentSpec where
  Config : RawExtension

/-- A `BundleDeployment` object. -/
structure BundleDeployment where
  Name : String
  Spec : BundleDeploymentSpec

/-- Chart values (`chartutil.Values`). -/
abbrev Values := GoMap JSON

/-- A loaded chart (`chart.Chart`), by the name in its metadata. -/
structure Chart where
  Name : String
  deriving DecidableEq, Repr

/-- The `Config` of a bundle deployment; `Values` is `none` for the nil map. -/
structure Config where
  Namespace : String
  Values : Option Values

/-- The local struct `config` of `ParseConfig`: two string fields. -/
structure config where
  Namespace : String := ""
  Values : String := ""
  deriving DecidableEq, Repr

/-- The libraries `helm.go` calls: `chartutil.ReadValues`, `util.FSToTarGZ`,
`loader.LoadArchive` (which reads the stream the archive is written to, or meets the
error the writer closed the pipe with) and `Chart.Validate`. -/
structure Libs where
  ReadValues : Bytes → Except String Values
  FSToTarGZ : Source.FS → Except String Bytes
  LoadArchive : Except String Bytes → Except String Chart
  Validate : Chart → Option String

/-- The fold of `encoding/json` for a character of an object key that is compared with
an ASCII field name: a small ASCII letter becomes the capital letter, and the two
characters outside ASCII whose case folding is an ASCII letter, the long s (U+017F) and
the Kelvin sign (U+212A), become `S` and `K`; every other character is left. -/
def foldChar (c : Char) : Char :=
  if 97 ≤ c.toNat ∧ c.toNat ≤ 122 then Char.ofNat (c.toNat - 32)
  else if c.toNat = 383 then 'S'
  else if c.toNat = 8490 then 'K'
  else c

/-- The match of `encoding/json` between an object key and the name of a field, for a name
of ASCII characters: the key is the name, or is equal to it under case folding. -/
def keyMatches (field key : String) : Bool :=
  key = field ∨ key.data.map foldChar = field.data.map foldChar

/-- The decoding of `encoding/json` of one object member into a string field: a string
is stored, `null` leaves the field, any other value is a type error. -/
def decodeStringField (name : String) (old : String) : JSON → Except String String
  | JSON.string s => .ok s
  | JSON.null => .ok old
  | _ => .error ("json: cannot unmarshal value into Go struct field config." ++ name
      ++ " of type string")

/-- The members of an object decoded into `config`, in their order; `err` is the first
type error met (decoding goes on after one). -/
def decodeFields : List (String × JSON) → config → Option String → config × Option String
  | [], cfg, err => (cfg, err)
  | (k, v) :: rest, cfg, err =>
    if keyMatches "namespace" k then
      match decodeStringField "namespace" cfg.Namespace v with
      | .ok s => decodeFields rest { cfg with Namespace := s } err
      | .error e => decodeFields rest cfg (err.orElse fun _ => some e)
    else if keyMatches "values" k then
      match decodeStringField "values" cfg.Values v with
      | .ok s => decodeFields rest { cfg with Values := s } err
      | .error e => decodeFields rest cfg (err.orElse fun _ => some e)
    else decodeFields rest cfg err

/-- The call `json.Unmarshal(data, &cfg)` for the struct `config`, on the JSON value
`data` serializes: `null` leaves the struct, an object fills the fields its members
match, any other value is a type error. -/
def unmarshalConfig : JSON → Except String config
  | JSON.null => .ok {}
  | JSON.object fields =>
    match decodeFields fields {} none with
    | (cfg, none) => .ok cfg
    | (_, some e) => .error e
  | _ => .error "json: cannot unmarshal value into Go value of type helm.config"

/-- The call `json.Marshal(bd.Spec.Config)`: a raw extension without bytes is `null`,
bytes that are not JSON are an error. -/
def marshalConfig : RawExtension → Except String JSON
  | RawExtension.unset => .ok JSON.null
  | RawExtension.malformed _ =>
    .error "json: error calling MarshalJSON for type runtime.RawExtension"
  | RawExtension.json v => .ok v

/-- The function `ParseConfig`. -/
def ParseConfig (l : Libs) (bd : BundleDeployment) : Except String Config :=
  match marshalConfig bd.Spec.Config with
  | .error err => .error ("marshal bundle deployment config to JSON: " ++ err)
  | .ok data =>
    match unmarshalConfig data with
    | .error err => .error err
    | .ok cfg =>
      let valuesString := cfg.Values
      if cfg.Values ≠ "" then
        match l.ReadValues valuesString with
        | .error err => .error ("read chart values: " ++ err)
        | .ok values => .ok { Namespace := cfg.Namespace, Values := some values }
      else .ok { Namespace := cfg.Namespace, Values := none }

/-- The function `getChart`: the writer's result is always handed to the reader through
the pipe (`CloseWithError` returns nil), so the error of `getChart` is the reader's. -/
def getChart (l : Libs) (chartfs : Source.FS) : Except String Chart :=
  match l.LoadArchive (l.FSToTarGZ chartfs) with
  | .error err => .error err
  | .ok chrt =>
    match l.Validate chrt with
    | some err => .error err
    | none => .ok chrt

/-- The function `HandleBundleDeployment`: the result, and the calls made. -/
def HandleBundleDeployment (l : Libs) (fsys : Source.FS) (bd : BundleDeployment) :
    Except String (Chart × Option Values) × List Call :=
  match ParseConfig l bd with
  | .error err => (.error ("parse bundle deployment config: " ++ err), [])
  | .ok cfg =>
    match getChart l fsys with
    | .error err => (.error err, [Call.getChart])
    | .ok chart => (.ok (chart, cfg.Values), [Call.getChart])

end Helm

/-! ## Package `controllers`: `util.go` -/

namespace Controllers

open Helm in
/-- The struct `config` of `util.go`; `Values` is `none` for the nil map. -/
structure config where
  Namespace : String
  Values : Option Values

/-- The local struct `parseConfig` of the function `parseConfig`: two string fields. -/
structure parseConfigFields where
  Namespace : String := ""
  Values : String := ""
  deriving DecidableEq, Repr

/-- The decoding of `encoding/json` of one object member into a string field of the
struct `parseConfig`: a string is stored, `null` leaves the field, any other value is a
type error. -/
def decodeStringField (name : String) (old : String) : Helm.JSON → Except String String
  | Helm.JSON.string s => .ok s
  | Helm.JSON.null => .ok old
  | _ => .error ("json: cannot unmarshal value into Go struct field parseConfig." ++ name
      ++ " of type string")

/-- The members of an object decoded into the struct `parseConfig`, in their order; `err`
is the first type error met (decoding goes on after one). -/
def decodeMembers :
    List (String × Helm.JSON) → parseConfigFields → Option String → parseConfigFields × Option String
  | [], pcfg, err => (pcfg, err)
  | (k, v) :: rest, pcfg, err =>
    if Helm.keyMatches "namespace" k then
      match decodeStringField "namespace" pcfg.Namespace v with
      | .ok s => decodeMembers rest { pcfg with Namespace := s } err
      | .error e => decodeMembers rest pcfg (err.orElse fun _ => some e)
    else if Helm.keyMatches "values" k then
      match decodeStringField "values" pcfg.Values v with
      | .ok s => decodeMembers rest { pcfg with Values := s } err
      | .error e => decodeMembers rest pcfg (err.orElse fun _ => some e)
    else decodeMembers rest pcfg err

/-- The decoding of a JSON value into the struct `parseConfig`: `null` leaves the struct,
an object fills the fields its members match, any other value is a type error. -/
def unmarshalValue : Helm.JSON → Except String parseConfigFields
  | Helm.JSON.null => .ok {}
  | Helm.JSON.object fields =>
    match decodeMembers fields {} none with
    | (pcfg, none) => .ok pcfg
    | (_, some e) => .error e
  | _ => .error "json: cannot unmarshal value into Go value of type controllers.parseConfig"

/-- The method `RawExtension.MarshalJSON`: the raw bytes, or the bytes `null` when there
are none; it returns no error. -/
def MarshalJSON : Helm.RawExtension → Helm.RawExtension
  | Helm.RawExtension.unset => Helm.RawExtension.json Helm.JSON.null
  | re => re

/-- The call `json.Unmarshal(data, &pcfg)`: bytes that are not JSON are a syntax error. -/
def Unmarshal : Helm.RawExtension → Except String parseConfigFields
  | Helm.RawExtension.unset => .error "unexpected end of JSON input"
  | Helm.RawExtension.malformed _ => .error "invalid character looking for beginning of value"
  | Helm.RawExtension.json v => unmarshalValue v

/-- The function `parseConfig`. -/
def parseConfig (l : Helm.Libs) (bd : Helm.BundleDeployment) : Except String config :=
  let data := MarshalJSON bd.Spec.Config
  match Unmarshal data with
  | .error err => .error err
  | .ok pcfg =>
    if pcfg.Namespace = "" then
      .error "install namespace not defined: set .spec.config.namespace"
    else if pcfg.Values ≠ "" then
      match l.ReadValues pcfg.Values with
      | .error err => .error err
      | .ok values => .ok { Namespace := pcfg.Namespace, Values := some values }
    else .ok { Namespace := pcfg.Namespace, Values := none }

/-- The function `MapToDeployNamespace`, on a bundle deployment. -/
def MapToDeployNamespace (l : Helm.Libs) (bd : Helm.BundleDeployment) : Except String String :=
  match parseConfig l bd with
  | .error err => .error err
  | .ok cfg => .ok cfg.Namespace

/-- Whether a JSON value is `null`. -/
def isNull : Helm.JSON → Bool
  | Helm.JSON.null => true
  | _ => false

/-- The values an object gives a field: those of its members whose key matches the name
of the field and whose value is not `null`, in their order. -/
def memberValues (name : String) (fields : List (String × Helm.JSON)) : List Helm.JSON :=
  (fields.filter fun kv => Helm.keyMatches name kv.1 && !isNull kv.2).map Prod.snd

/-- One more value for a string field: a string replaces the string so far; a value that
is not a string leaves no string. -/
def stringStep : Option String → Helm.JSON → Option String
  | some _, Helm.JSON.string s => some s
  | _, _ => none

/-- The string an object gives a field that holds `init`: the last of the values of the
field when they are all strings, `init` when there is none, and no string when one of
them is not a string. -/
def fieldStringFrom (name : String) (init : Option String) (fields : List (String × Helm.JSON)) :
    Option String :=
  (memberValues name fields).foldl stringStep init

/-- The string an object gives a field: the empty string when no member gives the field a
value. -/
def fieldString (name : String) (fields : List (String × Helm.JSON)) : Option String :=
  fieldStringFrom name (some "") fields

end Controllers

/-! ## Sample inputs -/

namespace Sample

/-- A bundle of kind ConfigMaps with the given entries. -/
def cmBundle (entries : Option (List ConfigMapSource)) : Bundle :=
  { APIVersion := "core.rukpak.io/v1alpha1", Kind := "Bundle", Name := "b", UID := "u1"
    Spec := { Source := { SourceType := SourceTypeConfigMaps, ConfigMaps := entries,
                          PersistentVolumeClaim := none } } }

/-- A cluster holding the immutable config maps `cm-a` and `cm-b`, each with the one
textual file `a.yaml`, the mutable config map `cm-m` and the empty immutable config map
`cm-e`; every other read fails. -/
def reader : Source.Reader where
  Get := fun _ name =>
    if name = "cm-a" then .ok { Data := [("a.yaml", "kind: X")], BinaryData := [], Immutable := some true }
    else if name = "cm-b" then .ok { Data := [("a.yaml", "kind: Y")], BinaryData := [], Immutable := some true }
    else if name = "cm-m" then .ok { Data := [("m.yaml", "kind: M")], BinaryData := [], Immutable := none }
    else if name = "cm-e" then .ok { Data := [], BinaryData := [], Immutable := some true }
    else .error "not found"

/-- The `ConfigMaps` resolver over the sample cluster. -/
def configMaps : Source.ConfigMaps := { Reader := reader, ConfigMapNamespace := "rukpak-system" }

/-- A bundle of kind PersistentVolumeClaim with the volume claim `my-claim`. -/
def pvcBundle : Bundle :=
  { APIVersion := "core.rukpak.io/v1alpha1", Kind := "Bundle", Name := "b", UID := "u1"
    Spec := { Source := { SourceType := SourceTypePersistentVolumeClaim, ConfigMaps := none,
                          PersistentVolumeClaim := some { Name := "my-claim" } } } }

/-- Dependencies whose `CreateOrRecreate` sets the fields of the pod and answers with the
operation result `op` and the pod in phase `phase`, with the deletion mark `del`; the
one well-formed payload is `payload`. -/
def deps (op : Source.OperationResult) (phase : String) (del : Option String) : Source.Deps where
  PodName := fun provisioner bundle => provisioner ++ "-unpack-bundle-" ++ bundle
  CoreOwnerKindKey := "core.rukpak.io/owner-kind"
  CoreOwnerNameKey := "core.rukpak.io/owner-name"
  CreateOrRecreate := fun pod f =>
    match f pod with
    | .error e => (.error e, pod)
    | .ok pod => (.ok op, { pod with Status.Phase := phase, DeletionTimestamp := del })
  imageBundleUnpackContainerName := "bundle"
  pendingMessage := fun _ => ""
  jsonUnmarshalContent := fun b =>
    if b = "payload" then .ok "gzip" else .error "invalid character"
  gzipNewReader := fun b => if b = "gzip" then .ok "tar" else .error "gzip: invalid header"
  tarfsNew := fun b =>
    if b = "tar" then .ok [("manifests/a.yaml", "kind: X")] else .error "unexpected EOF"

/-- The `PersistentVolumeClaim` resolver over a cluster whose log stream answers `logs`. -/
def pvc (logs : Source.LogStream) : Source.PersistentVolumeClaim :=
  { Client := { Delete := fun _ => none }
    KubeClient := { GetLogs := fun _ _ => logs }
    ProvisionerName := "core-rukpak-io-plain"
    PodNamespace := "rukpak-system"
    UnpackImage := "quay.io/operator-framework/rukpak:latest" }

/-- The name of the worker of the sample bundle. -/
def podName : String := "core-rukpak-io-plain-unpack-bundle-b"

/-- A pod left by someone else: two containers, a restart policy, a volume. -/
def strayPod : Source.Pod :=
  { Name := "stray"
    Spec := { RestartPolicy := "Always"
              Containers := [{ Name := "x", Args := ["serve"] }, { Name := "y" }]
              Volumes := [{ Name := "tmp", PersistentVolumeClaim := none }] } }

/-- Libraries whose chart loader loads every archive as the chart `chart`. -/
def libs : Helm.Libs where
  ReadValues := fun _ => .ok []
  FSToTarGZ := fun _ => .ok "targz"
  LoadArchive := fun stream =>
    match stream with
    | .ok _ => .ok { Name := "chart" }
    | .error e => .error e
  Validate := fun _ => none

/-- A bundle deployment with the given configuration. -/
def bundleDeployment (config : Helm.RawExtension) : Helm.BundleDeployment :=
  { Name := "bd", Spec := { Config := config } }

/-- The sample cluster with one more immutable config map, `cm-d`, whose key `a.yaml` is in
the textual and in the binary data, `t.yaml` in the textual data only and `b.bin` in the
binary data only. -/
def readerBoth : Source.Reader where
  Get := fun ns name =>
    if name = "cm-d" then
      .ok { Data := [("a.yaml", "text"), ("t.yaml", "only text")]
            BinaryData := [("a.yaml", "binary"), ("b.bin", "only binary")]
            Immutable := some true }
    else reader.Get ns name

/-- The `ConfigMaps` resolver over the cluster of `readerBoth`. -/
def configMapsBoth : Source.ConfigMaps :=
  { Reader := readerBoth, ConfigMapNamespace := "rukpak-system" }

/-- The entry `cm-a` at `first`. -/
def entryA : ConfigMapSource := { ConfigMap := { Name := "cm-a" }, Path := "first" }

/-- The entry `cm-d` at `manifests`. -/
def entryD : ConfigMapSource := { ConfigMap := { Name := "cm-d" }, Path := "manifests" }

/-- The entry `cm-b` at `last`. -/
def entryB : ConfigMapSource := { ConfigMap := { Name := "cm-b" }, Path := "last" }

/-- Libraries like `libs` whose `ReadValues` fails on the text `: bad`. -/
def libsStrict : Helm.Libs :=
  { libs with ReadValues := fun b => if b = ": bad" then .error "yaml: did not find expected key" else .ok [] }

end Sample

end Rukpak


/-! ## Maps -/

namespace Rukpak

theorem GoMap.get?_eq_none {V : Type} (m : GoMap V) (k : String) (h : k ∉ GoMap.keys m) :
    GoMap.get? m k = none := by
  induction m with
  | nil => rfl
  | cons kv rest ih =>
    obtain ⟨k1, v1⟩ := kv
    simp only [GoMap.keys, List.map_cons, List.mem_cons, not_or] at h
    have hne : ¬ k1 = k := fun e => h.1 e.symm
    simp only [GoMap.get?, hne, if_false]
    exact ih h.2

theorem GoMap.set_eq_append {V : Type} (m : GoMap V) (k : String) (v : V)
    (h : k ∉ GoMap.keys m) : GoMap.set m k v = m ++ [(k, v)] := by
  induction m with
  | nil => rfl
  | cons kv rest ih =>
    obtain ⟨k1, v1⟩ := kv
    simp only [GoMap.keys, List.map_cons, List.mem_cons, not_or] at h
    have hne : ¬ k1 = k := fun e => h.1 e.symm
    simp only [GoMap.set, hne, if_false, List.cons_append]
    rw [ih h.2]

theorem GoMap.foldl_set_eq_append (l acc : GoMap Bytes)
    (h : (GoMap.keys (acc ++ l)).Nodup) :
    l.foldl (fun files kv => GoMap.set files kv.1 kv.2) acc = acc ++ l := by
  induction l generalizing acc with
  | nil => simp
  | cons kv rest ih =>
    have hk : kv.1 ∉ GoMap.keys acc := by
      simp only [GoMap.keys, List.map_append, List.map_cons] at h
      have := (List.nodup_append.1 h).2.2
      intro hmem
      exact this hmem (List.mem_cons_self _ _)
    simp only [List.foldl_cons]
    rw [GoMap.set_eq_append acc kv.1 kv.2 hk, ih]
    · simp
    · simpa using h

end Rukpak

/-! ## `ConfigMaps.Unpack`: entries with pairwise distinct final paths -/

namespace Rukpak.Source

theorem mergeFiles_eq_append (rng : RangeOrder) (hrng : ∀ m, (rng m).Perm m) (cm : ConfigMap)
    (h : (GoMap.keys (cm.Data ++ cm.BinaryData)).Nodup) :
    mergeFiles rng cm = rng cm.Data ++ rng cm.BinaryData := by
  have hperm : (rng cm.Data ++ rng cm.BinaryData).Perm (cm.Data ++ cm.BinaryData) :=
    List.Perm.append (hrng _) (hrng _)
  have hnd : (GoMap.keys (rng cm.Data ++ rng cm.BinaryData)).Nodup :=
    (List.Perm.nodup_iff (hperm.map Prod.fst)).2 h
  have hnd1 : (GoMap.keys ([] ++ rng cm.Data)).Nodup := by
    simp only [GoMap.keys, List.map_append, List.nil_append] at hnd ⊢
    exact (List.nodup_append.1 hnd).1
  unfold mergeFiles
  simp only
  rw [GoMap.foldl_set_eq_append _ _ hnd1, List.nil_append,
    GoMap.foldl_set_eq_append _ _ hnd]

theorem mergeFiles_perm (rng : RangeOrder) (hrng : ∀ m, (rng m).Perm m) (cm : ConfigMap)
    (h : (GoMap.keys (cm.Data ++ cm.BinaryData)).Nodup) :
    (rng (mergeFiles rng cm)).Perm (cm.Data ++ cm.BinaryData) := by
  rw [mergeFiles_eq_append rng hrng cm h]
  exact (hrng _).trans (List.Perm.append (hrng _) (hrng _))

theorem unpackFiles_ok (o : ConfigMaps) (cmName dir : String) (l : List (String × Bytes))
    (seen : GoMap String) (fs : FS)
    (hnd : (l.map fun kv => Join dir kv.1).Nodup)
    (hseen : ∀ kv ∈ l, Join dir kv.1 ∉ GoMap.keys seen)
    (hfs : ∀ kv ∈ l, Join dir kv.1 ∉ GoMap.keys fs) :
    ∃ seen1, unpackFiles o cmName dir l seen fs
      = .ok (seen1, fs ++ l.map fun kv => (Join dir kv.1, kv.2)) := by
  induction l generalizing seen fs with
  | nil => exact ⟨seen, by simp [unpackFiles]⟩
  | cons kv rest ih =>
    obtain ⟨filename, data⟩ := kv
    simp only [List.map_cons, List.nodup_cons, List.mem_map, not_exists, not_and] at hnd
    have h1 : Join dir filename ∉ GoMap.keys seen := hseen _ (List.mem_cons_self _ _)
    have h2 : Join dir filename ∉ GoMap.keys fs := hfs _ (List.mem_cons_self _ _)
    have hfresh : ∀ kv ∈ rest, Join dir kv.1 ≠ Join dir filename := fun kv hkv => hnd.1 kv hkv
    simp only [unpackFiles, GoMap.get?_eq_none seen _ h1]
    rw [GoMap.set_eq_append seen _ cmName h1, GoMap.set_eq_append fs _ data h2]
    obtain ⟨seen1, h⟩ := ih (seen ++ [(Join dir filename, cmName)])
      (fs ++ [(Join dir filename, data)]) hnd.2
      (by
        intro kv hkv
        simp only [GoMap.keys, List.map_append, List.map_cons, List.map_nil, List.mem_append,
          List.mem_singleton, not_or]
        exact ⟨hseen kv (List.mem_cons_of_mem _ hkv), hfresh kv hkv⟩)
      (by
        intro kv hkv
        simp only [GoMap.keys, List.map_append, List.map_cons, List.map_nil, List.mem_append,
          List.mem_singleton, not_or]
        exact ⟨hfs kv (List.mem_cons_of_mem _ hkv), hfresh kv hkv⟩)
    exact ⟨seen1, by rw [h]; simp⟩

theorem entryFiles_of_read (o : ConfigMaps) (e : ConfigMapSource) (cm : ConfigMap)
    (h : o.Reader.Get o.ConfigMapNamespace e.ConfigMap.Name = .ok cm) :
    entryFiles o e
      = (cm.Data ++ cm.BinaryData).map fun kv => (Join (Clean e.Path) kv.1, kv.2) := by
  simp [entryFiles, dataUnits, h]

theorem unpackSources_ok (o : ConfigMaps) (rng : RangeOrder) (hrng : ∀ m, (rng m).Perm m)
    (entries : List ConfigMapSource) (fs : FS) (tr : List Call)
    (hread : ∀ e ∈ entries, ∃ cm,
      o.Reader.Get o.ConfigMapNamespace e.ConfigMap.Name = .ok cm ∧ cm.Immutable = some true)
    (hnd : (GoMap.keys (fs ++ expectedFiles o entries)).Nodup) :
    ∃ tree, unpackSources o rng entries fs tr = (.ok tree, tr ++ readCalls o entries)
      ∧ tree.Perm (fs ++ expectedFiles o entries) := by
  induction entries generalizing fs tr with
  | nil => exact ⟨fs, by simp [unpackSources, readCalls, expectedFiles]⟩
  | cons e rest ih =>
    obtain ⟨cm, hget, himm⟩ := hread e (List.mem_cons_self _ _)
    have hentry := entryFiles_of_read o e cm hget
    -- the final paths of this entry are distinct and new
    have hnd1 : (GoMap.keys (fs ++ (entryFiles o e ++ expectedFiles o rest))).Nodup := hnd
    simp only [GoMap.keys, List.map_append] at hnd1
    have hA := List.nodup_append.1 hnd1
    have hB := List.nodup_append.1 hA.2.1
    have hentryNd : ((entryFiles o e).map Prod.fst).Nodup := hB.1
    rw [hentry, List.map_map] at hentryNd
    have hkeys : (GoMap.keys (cm.Data ++ cm.BinaryData)).Nodup := by
      have : (fun kv : String × Bytes => Join (Clean e.Path) kv.1)
          = (fun k => Join (Clean e.Path) k) ∘ Prod.fst := rfl
      have h2 : (List.map (fun k => Join (Clean e.Path) k)
          (GoMap.keys (cm.Data ++ cm.BinaryData))).Nodup := by
        simpa [GoMap.keys, List.map_map, Function.comp_def] using hentryNd
      exact List.Nodup.of_map _ h2
    have hperm := mergeFiles_perm rng hrng cm hkeys
    have hpermPaths : ((rng (mergeFiles rng cm)).map fun kv => (Join (Clean e.Path) kv.1, kv.2)).Perm
        (entryFiles o e) := by
      rw [hentry]; exact hperm.map _
    have hlNd : ((rng (mergeFiles rng cm)).map fun kv => Join (Clean e.Path) kv.1).Nodup := by
      have h3 := (List.Perm.nodup_iff ((hperm.map fun kv => Join (Clean e.Path) kv.1))).2
      apply h3
      simpa [Function.comp_def] using hentryNd
    have hlFs : ∀ kv ∈ rng (mergeFiles rng cm), Join (Clean e.Path) kv.1 ∉ GoMap.keys fs := by
      intro kv hkv hmem
      have hkv2 : kv ∈ cm.Data ++ cm.BinaryData := hperm.subset hkv
      have hin : Join (Clean e.Path) kv.1 ∈ (entryFiles o e).map Prod.fst := by
        rw [hentry, List.map_map]
        exact List.mem_map.2 ⟨kv, hkv2, rfl⟩
      exact hA.2.2 hmem (List.mem_append_left _ hin)
    obtain ⟨seen1, hfiles⟩ := unpackFiles_ok o e.ConfigMap.Name (Clean e.Path)
      (rng (mergeFiles rng cm)) [] fs hlNd (by intro kv _; simp [GoMap.keys]) hlFs
    have hnd2 : (GoMap.keys ((fs ++ (rng (mergeFiles rng cm)).map
        fun kv => (Join (Clean e.Path) kv.1, kv.2)) ++ expectedFiles o rest)).Nodup := by
      have hp : ((fs ++ (rng (mergeFiles rng cm)).map
          fun kv => (Join (Clean e.Path) kv.1, kv.2)) ++ expectedFiles o rest).Perm
          (fs ++ (entryFiles o e ++ expectedFiles o rest)) := by
        rw [List.append_assoc]
        exact List.Perm.append_left _ (List.Perm.append_right _ hpermPaths)
      exact (List.Perm.nodup_iff (hp.map Prod.fst)).2 hnd
    obtain ⟨tree, hrun, htree⟩ := ih (fs ++ (rng (mergeFiles rng cm)).map
      fun kv => (Join (Clean e.Path) kv.1, kv.2))
      (tr ++ [Call.getConfigMap o.ConfigMapNamespace e.ConfigMap.Name])
      (fun e1 he1 => hread e1 (List.mem_cons_of_mem _ he1)) hnd2
    refine ⟨tree, ?_, ?_⟩
    · simp only [unpackSources, hget, himm, hfiles]
      simp only [reduceCtorEq, or_self, if_false]
      rw [hrun]
      simp [readCalls]
    · refine htree.trans ?_
      show List.Perm _ (fs ++ (entryFiles o e ++ expectedFiles o rest))
      rw [List.append_assoc]
      exact List.Perm.append_left _ (List.Perm.append_right _ hpermPaths)

/-- C1. For a bundle of source kind ConfigMaps whose entry list is present, whose entries
all reference config maps that can be read and are marked immutable, and whose final
paths (the cleaned destination path of the entry joined with each data key) are
pairwise distinct across all entries, `ConfigMaps.Unpack` succeeds with state Unpacked,
with the source as resolved source, and the tree holds exactly the files of the entries
at their joined paths (it is a permutation of them), whatever the order in which the
maps are ranged over. -/
theorem configMaps_unpack_disjoint (o : ConfigMaps) (rng : RangeOrder) (bundle : Bundle)
    (entries : List ConfigMapSource)
    (hrng : ∀ m, (rng m).Perm m)
    (hkind : bundle.Spec.Source.SourceType = SourceTypeConfigMaps)
    (hentries : bundle.Spec.Source.ConfigMaps = some entries)
    (hread : ∀ e ∈ entries, ∃ cm,
      o.Reader.Get o.ConfigMapNamespace e.ConfigMap.Name = .ok cm ∧ cm.Immutable = some true)
    (hdistinct : ((expectedFiles o entries).map Prod.fst).Nodup) :
    ∃ tree,
      (ConfigMaps.Unpack o rng bundle).1
        = .ok { Bundle := some tree
                ResolvedSource := some { SourceType := SourceTypeConfigMaps
                                         ConfigMaps := some entries
                                         PersistentVolumeClaim := none }
                State := State.StateUnpacked
                Message := "" }
      ∧ tree.Perm (expectedFiles o entries)
      ∧ (∀ p d, (p, d) ∈ tree ↔
          ∃ e ∈ entries, ∃ kv ∈ dataUnits o e, p = Join (Clean e.Path) kv.1 ∧ d = kv.2) := by
  obtain ⟨tree, hrun, htree⟩ := unpackSources_ok o rng hrng entries [] [] hread
    (by simpa [GoMap.keys] using hdistinct)
  rw [List.nil_append] at htree
  refine ⟨tree, ?_, htree, ?_⟩
  · simp [ConfigMaps.Unpack, hkind, hentries, hrun, BundleSource.DeepCopy]
  · intro p d
    rw [htree.mem_iff]
    clear hrun htree hread hdistinct hentries
    induction entries with
    | nil => simp [expectedFiles]
    | cons e rest ih =>
      simp only [expectedFiles, List.mem_append, ih, entryFiles, List.mem_map, List.mem_cons,
        exists_eq_or_imp, Prod.mk.injEq]
      constructor
      · rintro (⟨kv, hkv, h1, h2⟩ | h)
        · exact Or.inl ⟨kv, hkv, h1.symm, h2.symm⟩
        · exact Or.inr h
      · rintro (⟨kv, hkv, h1, h2⟩ | h)
        · exact Or.inl ⟨kv, hkv, h1.symm, h2.symm⟩
        · exact Or.inr h

/-- Witness of C1 at the entries `[{ref: cm-a, path: manifests}]`, where `cm-a` is immutable
with data `a.yaml` = `kind: X`: the tree is a permutation of the single file
`manifests/a.yaml` with the bytes `kind: X`. -/
theorem configMaps_unpack_disjoint_witness :
    (∀ e ∈ [({ ConfigMap := { Name := "cm-a" }, Path := "manifests" } : ConfigMapSource)],
      ∃ cm, Sample.configMaps.Reader.Get Sample.configMaps.ConfigMapNamespace e.ConfigMap.Name
        = .ok cm ∧ cm.Immutable = some true)
    ∧ ∃ tree,
      (ConfigMaps.Unpack Sample.configMaps id
          (Sample.cmBundle (some [{ ConfigMap := { Name := "cm-a" }, Path := "manifests" }]))).1
        = .ok { Bundle := some tree
                ResolvedSource := some { SourceType := SourceTypeConfigMaps
                                         ConfigMaps := some [{ ConfigMap := { Name := "cm-a" },
                                                               Path := "manifests" }]
                                         PersistentVolumeClaim := none }
                State := State.StateUnpacked
                Message := "" }
      ∧ tree.Perm [("manifests/a.yaml", "kind: X")]
      ∧ (∀ p d, (p, d) ∈ tree ↔
          ∃ e ∈ [({ ConfigMap := { Name := "cm-a" }, Path := "manifests" } : ConfigMapSource)],
            ∃ kv ∈ dataUnits Sample.configMaps e, p = Join (Clean e.Path) kv.1 ∧ d = kv.2) :=
  have hread : ∀ e ∈ [({ ConfigMap := { Name := "cm-a" }, Path := "manifests" } : ConfigMapSource)],
      ∃ cm, Sample.configMaps.Reader.Get Sample.configMaps.ConfigMapNamespace e.ConfigMap.Name
        = .ok cm ∧ cm.Immutable = some true := by
    intro e he
    rw [List.mem_singleton] at he
    subst he
    exact ⟨_, rfl, rfl⟩
  ⟨hread, configMaps_unpack_disjoint Sample.configMaps id
    (Sample.cmBundle (some [{ ConfigMap := { Name := "cm-a" }, Path := "manifests" }]))
    [{ ConfigMap := { Name := "cm-a" }, Path := "manifests" }]
    (fun m => List.Perm.refl m) rfl rfl hread (by decide)⟩

/-- C2, the code at two entries with the same final path: `cm-a` and `cm-b` both hold
`a.yaml` and both go to `manifests`.  `Unpack` returns no error; it returns state
Unpacked with the single file `manifests/a.yaml` holding the bytes of `cm-b`, the bytes
of `cm-a` overwritten. -/
theorem configMaps_unpack_collision_across_entries :
    ConfigMaps.Unpack Sample.configMaps id
        (Sample.cmBundle (some [{ ConfigMap := { Name := "cm-a" }, Path := "manifests" },
                                { ConfigMap := { Name := "cm-b" }, Path := "manifests" }]))
      = (.ok { Bundle := some [("manifests/a.yaml", "kind: Y")]
               ResolvedSource := some { SourceType := SourceTypeConfigMaps
                                        ConfigMaps := some [{ ConfigMap := { Name := "cm-a" },
                                                              Path := "manifests" },
                                                            { ConfigMap := { Name := "cm-b" },
                                                              Path := "manifests" }]
                                        PersistentVolumeClaim := none }
               State := State.StateUnpacked
               Message := "" },
         [Call.getConfigMap "rukpak-system" "cm-a", Call.getConfigMap "rukpak-system" "cm-b"]) := by
  rfl

end Rukpak.Source

/-! ## `ConfigMaps.Unpack`: config maps that are not immutable -/

namespace Rukpak.Source

theorem not_immutable_iff (flag : Option Bool) :
    (flag = none ∨ flag = some false) ↔ flag ≠ some true := by
  cases flag with
  | none => simp
  | some b => cases b <;> simp

theorem unpackFiles_isOk (o : ConfigMaps) (cmName dir : String) (l : List (String × Bytes))
    (seen : GoMap String) (fs : FS)
    (hnd : (l.map fun kv => Join dir kv.1).Nodup)
    (hseen : ∀ kv ∈ l, Join dir kv.1 ∉ GoMap.keys seen) :
    ∃ out, unpackFiles o cmName dir l seen fs = .ok out := by
  induction l generalizing seen fs with
  | nil => exact ⟨(seen, fs), by simp [unpackFiles]⟩
  | cons kv rest ih =>
    obtain ⟨filename, data⟩ := kv
    simp only [List.map_cons, List.nodup_cons, List.mem_map, not_exists, not_and] at hnd
    have h1 : Join dir filename ∉ GoMap.keys seen := hseen _ (List.mem_cons_self _ _)
    simp only [unpackFiles, GoMap.get?_eq_none seen _ h1]
    rw [GoMap.set_eq_append seen _ cmName h1]
    apply ih _ _ hnd.2
    intro kv hkv
    simp only [GoMap.keys, List.map_append, List.map_cons, List.map_nil, List.mem_append,
      List.mem_singleton, not_or]
    exact ⟨hseen kv (List.mem_cons_of_mem _ hkv), hnd.1 kv hkv⟩

theorem rangeFiles_paths_nodup (o : ConfigMaps) (rng : RangeOrder)
    (hrng : ∀ m, (rng m).Perm m) (e : ConfigMapSource) (cm : ConfigMap)
    (hget : o.Reader.Get o.ConfigMapNamespace e.ConfigMap.Name = .ok cm)
    (hnd : ((entryFiles o e).map Prod.fst).Nodup) :
    ((rng (mergeFiles rng cm)).map fun kv => Join (Clean e.Path) kv.1).Nodup := by
  rw [entryFiles_of_read o e cm hget, List.map_map] at hnd
  have hkeys : (GoMap.keys (cm.Data ++ cm.BinaryData)).Nodup := by
    have h2 : (List.map (fun k => Join (Clean e.Path) k)
        (GoMap.keys (cm.Data ++ cm.BinaryData))).Nodup := by
      simpa [GoMap.keys, List.map_map, Function.comp_def] using hnd
    exact List.Nodup.of_map _ h2
  have hperm := mergeFiles_perm rng hrng cm hkeys
  apply (List.Perm.nodup_iff ((hperm.map fun kv => Join (Clean e.Path) kv.1))).2
  simpa [Function.comp_def] using hnd

/-- An entry that is read, is immutable and whose own final paths are pairwise distinct. -/
theorem unpackSources_step (o : ConfigMaps) (rng : RangeOrder) (hrng : ∀ m, (rng m).Perm m)
    (e : ConfigMapSource) (rest : List ConfigMapSource) (fs : FS) (tr : List Call)
    (hfine : ∃ cm, o.Reader.Get o.ConfigMapNamespace e.ConfigMap.Name = .ok cm
      ∧ cm.Immutable = some true ∧ ((entryFiles o e).map Prod.fst).Nodup) :
    ∃ fs1, unpackSources o rng (e :: rest) fs tr
      = unpackSources o rng rest fs1 (tr ++ readCalls o [e]) := by
  obtain ⟨cm, hget, himm, hnd⟩ := hfine
  obtain ⟨out, hout⟩ := unpackFiles_isOk o e.ConfigMap.Name (Clean e.Path)
    (rng (mergeFiles rng cm)) [] fs (rangeFiles_paths_nodup o rng hrng e cm hget hnd)
    (by intro kv _; simp [GoMap.keys])
  refine ⟨out.2, ?_⟩
  simp only [unpackSources, hget, himm, hout]
  simp [readCalls]

theorem unpackSources_prefix (o : ConfigMaps) (rng : RangeOrder) (hrng : ∀ m, (rng m).Perm m)
    (pre rest : List ConfigMapSource) (fs : FS) (tr : List Call)
    (hfine : ∀ e ∈ pre, ∃ cm, o.Reader.Get o.ConfigMapNamespace e.ConfigMap.Name = .ok cm
      ∧ cm.Immutable = some true ∧ ((entryFiles o e).map Prod.fst).Nodup) :
    ∃ fs1, unpackSources o rng (pre ++ rest) fs tr
      = unpackSources o rng rest fs1 (tr ++ readCalls o pre) := by
  induction pre generalizing fs tr with
  | nil => exact ⟨fs, by simp [readCalls]⟩
  | cons e pre ih =>
    obtain ⟨fs1, h1⟩ := unpackSources_step o rng hrng e (pre ++ rest) fs tr
      (hfine e (List.mem_cons_self _ _))
    obtain ⟨fs2, h2⟩ := ih fs1 (tr ++ readCalls o [e])
      (fun e1 he1 => hfine e1 (List.mem_cons_of_mem _ he1))
    refine ⟨fs2, ?_⟩
    rw [List.cons_append, h1, h2]
    simp [readCalls]

theorem unpackSources_not_immutable (o : ConfigMaps) (rng : RangeOrder) (e : ConfigMapSource)
    (rest : List ConfigMapSource) (fs : FS) (tr : List Call) (cm : ConfigMap)
    (hget : o.Reader.Get o.ConfigMapNamespace e.ConfigMap.Name = .ok cm)
    (hmut : cm.Immutable ≠ some true) :
    unpackSources o rng (e :: rest) fs tr
      = (.error ("configmap " ++ o.ConfigMapNamespace ++ "/" ++ e.ConfigMap.Name
          ++ " is not immutable: all bundle configmaps must be immutable"),
        tr ++ readCalls o [e]) := by
  simp only [unpackSources, hget, (not_immutable_iff cm.Immutable).2 hmut, if_true]
  simp [readCalls]

theorem unpackSources_fails (o : ConfigMaps) (rng : RangeOrder) (entries : List ConfigMapSource)
    (fs : FS) (tr : List Call) (e : ConfigMapSource) (cm : ConfigMap) (he : e ∈ entries)
    (hget : o.Reader.Get o.ConfigMapNamespace e.ConfigMap.Name = .ok cm)
    (hmut : cm.Immutable ≠ some true) :
    ∃ err, (unpackSources o rng entries fs tr).1 = .error err := by
  induction entries generalizing fs tr with
  | nil => simp at he
  | cons e1 rest ih =>
    simp only [unpackSources]
    cases hget1 : o.Reader.Get o.ConfigMapNamespace e1.ConfigMap.Name with
    | error err => exact ⟨_, rfl⟩
    | ok cm1 =>
      by_cases himm : cm1.Immutable = none ∨ cm1.Immutable = some false
      · simp only [himm, if_true]; exact ⟨_, rfl⟩
      · simp only [himm, if_false]
        cases hfiles : unpackFiles o e1.ConfigMap.Name (Clean e1.Path)
            (rng (mergeFiles rng cm1)) [] fs with
        | error err => exact ⟨_, rfl⟩
        | ok out =>
          rcases List.mem_cons.1 he with h | h
          · subst h
            rw [hget] at hget1
            cases hget1
            exact absurd ((not_immutable_iff _).2 hmut) himm
          · exact ih _ _ h

/-- C3, as amended. A bundle of source kind ConfigMaps with an entry whose config map is
read and is not marked immutable always makes `ConfigMaps.Unpack` fail, whatever the
other reads answer; and when every entry before that entry is read, is immutable and
has pairwise distinct final paths of its own, the error is the immutability error of
that config map, and the reads made are those of the entries up to it. -/
theorem configMaps_unpack_not_immutable (o : ConfigMaps) (rng : RangeOrder) (bundle : Bundle)
    (pre post : List ConfigMapSource) (e : ConfigMapSource) (cm : ConfigMap)
    (hkind : bundle.Spec.Source.SourceType = SourceTypeConfigMaps)
    (hentries : bundle.Spec.Source.ConfigMaps = some (pre ++ e :: post))
    (hget : o.Reader.Get o.ConfigMapNamespace e.ConfigMap.Name = .ok cm)
    (hmut : cm.Immutable ≠ some true) :
    (∃ err, (ConfigMaps.Unpack o rng bundle).1 = .error err)
    ∧ ((∀ m, (rng m).Perm m) →
        (∀ e1 ∈ pre, ∃ cm1, o.Reader.Get o.ConfigMapNamespace e1.ConfigMap.Name = .ok cm1
          ∧ cm1.Immutable = some true ∧ ((entryFiles o e1).map Prod.fst).Nodup) →
        ConfigMaps.Unpack o rng bundle
          = (.error ("configmap " ++ o.ConfigMapNamespace ++ "/" ++ e.ConfigMap.Name
              ++ " is not immutable: all bundle configmaps must be immutable"),
            readCalls o (pre ++ [e]))) := by
  constructor
  · obtain ⟨err, herr⟩ := unpackSources_fails o rng (pre ++ e :: post) [] [] e cm
      (by simp) hget hmut
    refine ⟨err, ?_⟩
    simp only [ConfigMaps.Unpack, hkind, hentries, ne_eq, not_true_eq_false, if_false]
    generalize unpackSources o rng (pre ++ e :: post) [] [] = r at herr
    obtain ⟨r1, r2⟩ := r
    simp only at herr
    subst herr
    rfl
  · intro hrng hfine
    obtain ⟨fs1, h1⟩ := unpackSources_prefix o rng hrng pre (e :: post) [] [] hfine
    simp only [ConfigMaps.Unpack, hkind, hentries, ne_eq, not_true_eq_false, if_false]
    rw [h1, unpackSources_not_immutable o rng e post fs1 _ cm hget hmut]
    simp [readCalls]

/-- Witness of C3 as amended, at the entries `cm-a` then `cm-m`, the second not marked
immutable. -/
theorem configMaps_unpack_not_immutable_witness :
    (∃ err, (ConfigMaps.Unpack Sample.configMaps id
      (Sample.cmBundle (some [{ ConfigMap := { Name := "cm-a" }, Path := "manifests" },
                              { ConfigMap := { Name := "cm-m" }, Path := "more" }]))).1
        = .error err)
    ∧ ConfigMaps.Unpack Sample.configMaps id
      (Sample.cmBundle (some [{ ConfigMap := { Name := "cm-a" }, Path := "manifests" },
                              { ConfigMap := { Name := "cm-m" }, Path := "more" }]))
        = (.error "configmap rukpak-system/cm-m is not immutable: all bundle configmaps must be immutable",
           [Call.getConfigMap "rukpak-system" "cm-a", Call.getConfigMap "rukpak-system" "cm-m"]) :=
  have h := configMaps_unpack_not_immutable Sample.configMaps id
    (Sample.cmBundle (some [{ ConfigMap := { Name := "cm-a" }, Path := "manifests" },
                            { ConfigMap := { Name := "cm-m" }, Path := "more" }]))
    [{ ConfigMap := { Name := "cm-a" }, Path := "manifests" }] []
    { ConfigMap := { Name := "cm-m" }, Path := "more" }
    { Data := [("m.yaml", "kind: M")], BinaryData := [], Immutable := none }
    rfl rfl rfl (by decide)
  ⟨h.1, h.2 (fun m => List.Perm.refl m) (by
    intro e1 he1
    rw [List.mem_singleton] at he1
    subst he1
    exact ⟨_, rfl, rfl, by decide⟩)⟩

/-- C3, the claim as stated fails: with the entries `cm-x` (which cannot be read) and then
`cm-m` (read, not marked immutable), the error of `Unpack` is the read error of `cm-x`,
not the immutability error of `cm-m`. -/
theorem configMaps_unpack_read_error_first :
    (ConfigMaps.Unpack Sample.configMaps id
      (Sample.cmBundle (some [{ ConfigMap := { Name := "cm-x" }, Path := "manifests" },
                              { ConfigMap := { Name := "cm-m" }, Path := "more" }]))).1
        = .error "get configmap rukpak-system/cm-x: not found"
    ∧ Sample.configMaps.Reader.Get "rukpak-system" "cm-m"
        = .ok { Data := [("m.yaml", "kind: M")], BinaryData := [], Immutable := none }
    ∧ (ConfigMaps.Unpack Sample.configMaps id
      (Sample.cmBundle (some [{ ConfigMap := { Name := "cm-x" }, Path := "manifests" },
                              { ConfigMap := { Name := "cm-m" }, Path := "more" }]))).1
        ≠ .error "configmap rukpak-system/cm-m is not immutable: all bundle configmaps must be immutable" := by
  refine ⟨rfl, rfl, ?_⟩
  intro h
  have h2 : (Except.error "get configmap rukpak-system/cm-x: not found" : Except String Result)
      = .error "configmap rukpak-system/cm-m is not immutable: all bundle configmaps must be immutable" :=
    h
  injection h2 with h3
  exact absurd h3 (by decide)

end Rukpak.Source

/-! ## `PersistentVolumeClaim.Unpack` -/

namespace Rukpak.Source

theorem pvc_unpack_of_ensure_error (i : PersistentVolumeClaim) (d : Deps) (bundle : Bundle)
    (err : String) (pod : Pod)
    (hkind : bundle.Spec.Source.SourceType = SourceTypePersistentVolumeClaim)
    (hclaim : bundle.Spec.Source.PersistentVolumeClaim ≠ none)
    (hens : ensured i d bundle = (.error err, pod)) :
    PersistentVolumeClaim.Unpack i d bundle = (.error err, [ensureCall i d bundle]) := by
  unfold ensured workerKey at hens
  simp only [PersistentVolumeClaim.Unpack, hkind, hclaim, ne_eq, not_true_eq_false, if_false,
    PersistentVolumeClaim.ensureUnpackPod, hens, ensureCall]

theorem pvc_unpack_of_ensured (i : PersistentVolumeClaim) (d : Deps) (bundle : Bundle)
    (op : OperationResult) (pod : Pod)
    (hkind : bundle.Spec.Source.SourceType = SourceTypePersistentVolumeClaim)
    (hclaim : bundle.Spec.Source.PersistentVolumeClaim ≠ none)
    (hens : ensured i d bundle = (.ok op, pod)) :
    PersistentVolumeClaim.Unpack i d bundle =
      if op = OperationResult.OperationResultCreated ∨ op = OperationResult.OperationResultUpdated
          ∨ pod.DeletionTimestamp ≠ none then
        (.ok { State := State.StatePending }, [ensureCall i d bundle])
      else if pod.Status.Phase = PodPending then
        (.ok (pendingImagePodResult d pod), [ensureCall i d bundle])
      else if pod.Status.Phase = PodRunning then
        (.ok { State := State.StateUnpacking }, [ensureCall i d bundle])
      else if pod.Status.Phase = PodFailed then
        (.error (i.failedPodResult pod).1, [ensureCall i d bundle] ++ (i.failedPodResult pod).2)
      else if pod.Status.Phase = PodSucceeded then
        ((i.succeededPodResult d bundle pod).1,
          [ensureCall i d bundle] ++ (i.succeededPodResult d bundle pod).2)
      else
        (.error (i.handleUnexpectedPod pod).1,
          [ensureCall i d bundle] ++ (i.handleUnexpectedPod pod).2) := by
  unfold ensured workerKey at hens
  simp only [PersistentVolumeClaim.Unpack, hkind, hclaim, ne_eq, not_true_eq_false, if_false,
    PersistentVolumeClaim.ensureUnpackPod, hens, ensureCall]

theorem getPodLogs_data (i : PersistentVolumeClaim) (pod : Pod) (logs : Bytes)
    (h : i.KubeClient.GetLogs pod.Namespace pod.Name = .data logs) :
    i.getPodLogs pod = (.ok logs, [Call.getLogs pod.Namespace pod.Name]) := by
  simp [PersistentVolumeClaim.getPodLogs, h]

theorem getPodLogs_error (i : PersistentVolumeClaim) (pod : Pod)
    (h : ∀ logs, i.KubeClient.GetLogs pod.Namespace pod.Name ≠ .data logs) :
    ∃ err, i.getPodLogs pod = (.error err, [Call.getLogs pod.Namespace pod.Name]) := by
  unfold PersistentVolumeClaim.getPodLogs
  cases hl : i.KubeClient.GetLogs pod.Namespace pod.Name with
  | openError err => exact ⟨_, rfl⟩
  | readError err => exact ⟨_, rfl⟩
  | data logs => exact absurd hl (h logs)

theorem failedPodResult_data (i : PersistentVolumeClaim) (pod : Pod) (logs : Bytes)
    (h : i.KubeClient.GetLogs pod.Namespace pod.Name = .data logs) :
    i.failedPodResult pod
      = ("unpack failed: " ++ logs,
          [Call.getLogs pod.Namespace pod.Name, Call.delete pod.Namespace pod.Name]) := by
  simp [PersistentVolumeClaim.failedPodResult, getPodLogs_data i pod logs h]

theorem failedPodResult_error (i : PersistentVolumeClaim) (pod : Pod)
    (h : ∀ logs, i.KubeClient.GetLogs pod.Namespace pod.Name ≠ .data logs) :
    ∃ err, i.getPodLogs pod = (.error err, [Call.getLogs pod.Namespace pod.Name])
      ∧ i.failedPodResult pod
        = ("unpack failed: failed to retrieve failed pod logs: " ++ err,
            [Call.getLogs pod.Namespace pod.Name]) := by
  obtain ⟨err, herr⟩ := getPodLogs_error i pod h
  exact ⟨err, herr, by simp [PersistentVolumeClaim.failedPodResult, herr]⟩

theorem succeededPodResult_ok (i : PersistentVolumeClaim) (d : Deps) (bundle : Bundle) (pod : Pod)
    (bundleData content gzr : Bytes) (fs : FS)
    (hlogs : i.KubeClient.GetLogs pod.Namespace pod.Name = .data bundleData)
    (hjson : d.jsonUnmarshalContent bundleData = .ok content)
    (hgzip : d.gzipNewReader content = .ok gzr)
    (htar : d.tarfsNew gzr = .ok fs) :
    i.succeededPodResult d bundle pod
      = (.ok { Bundle := some fs, ResolvedSource := some bundle.Spec.Source,
               State := State.StateUnpacked },
          [Call.getLogs pod.Namespace pod.Name]) := by
  simp [PersistentVolumeClaim.succeededPodResult, PersistentVolumeClaim.getBundleContents,
    getPodLogs_data i pod bundleData hlogs, hjson, hgzip, htar, BundleSource.DeepCopy]

/-- The payload of a succeeded worker is malformed: the log stream, the JSON envelope,
the gzip header or the archive fails. -/
theorem succeededPodResult_error (i : PersistentVolumeClaim) (d : Deps) (bundle : Bundle)
    (pod : Pod)
    (hbad : ∀ bundleData content gzr fs,
      i.KubeClient.GetLogs pod.Namespace pod.Name = .data bundleData →
      d.jsonUnmarshalContent bundleData = .ok content →
      d.gzipNewReader content = .ok gzr → d.tarfsNew gzr ≠ .ok fs) :
    ∃ err, i.succeededPodResult d bundle pod
      = (.error err, [Call.getLogs pod.Namespace pod.Name]) := by
  unfold PersistentVolumeClaim.succeededPodResult PersistentVolumeClaim.getBundleContents
    PersistentVolumeClaim.getPodLogs
  cases hl : i.KubeClient.GetLogs pod.Namespace pod.Name with
  | openError err => exact ⟨_, rfl⟩
  | readError err => exact ⟨_, rfl⟩
  | data bundleData =>
    simp only
    cases hj : d.jsonUnmarshalContent bundleData with
    | error err => exact ⟨_, rfl⟩
    | ok content =>
      simp only
      cases hg : d.gzipNewReader content with
      | error err => exact ⟨_, rfl⟩
      | ok gzr =>
        simp only
        cases ht : d.tarfsNew gzr with
        | error err => exact ⟨_, rfl⟩
        | ok fs => exact absurd ht (hbad bundleData content gzr fs hl hj hg)

theorem podPhase_distinct :
    PodRunning ≠ PodPending ∧ PodFailed ≠ PodPending ∧ PodFailed ≠ PodRunning
      ∧ PodSucceeded ≠ PodPending ∧ PodSucceeded ≠ PodRunning ∧ PodSucceeded ≠ PodFailed := by
  decide

/-- C4, as amended. For a bundle of source kind PersistentVolumeClaim with its volume
reference set and an ensure step that answers with the operation result `op` and the
worker `pod`: if the worker was created or updated, or is marked for deletion, the
result is Pending without content, whatever the phase; otherwise phase Pending gives
Pending, Running gives Unpacking without content, Succeeded with retrievable logs and a
well-formed payload gives Unpacked, Failed gives an error, with the worker deleted when
its logs were retrieved and without any delete when they were not, and every other
phase gives the unexpected-phase error with the worker deleted. The calls made are
listed in each case, and logs are read in the Succeeded and Failed cases only. -/
theorem pvc_unpack_outcome (i : PersistentVolumeClaim) (d : Deps) (bundle : Bundle)
    (op : OperationResult) (pod : Pod)
    (hkind : bundle.Spec.Source.SourceType = SourceTypePersistentVolumeClaim)
    (hclaim : bundle.Spec.Source.PersistentVolumeClaim ≠ none)
    (hens : ensured i d bundle = (.ok op, pod)) :
    ((op = OperationResult.OperationResultCreated ∨ op = OperationResult.OperationResultUpdated
        ∨ pod.DeletionTimestamp ≠ none) →
      PersistentVolumeClaim.Unpack i d bundle
        = (.ok { Bundle := none, ResolvedSource := none, State := State.StatePending, Message := "" },
            [ensureCall i d bundle]))
    ∧ (¬ (op = OperationResult.OperationResultCreated ∨ op = OperationResult.OperationResultUpdated
        ∨ pod.DeletionTimestamp ≠ none) →
      (pod.Status.Phase = PodPending →
        PersistentVolumeClaim.Unpack i d bundle
          = (.ok { Bundle := none, ResolvedSource := none, State := State.StatePending,
                   Message := d.pendingMessage pod },
              [ensureCall i d bundle]))
      ∧ (pod.Status.Phase = PodRunning →
        PersistentVolumeClaim.Unpack i d bundle
          = (.ok { Bundle := none, ResolvedSource := none, State := State.StateUnpacking,
                   Message := "" },
              [ensureCall i d bundle]))
      ∧ (pod.Status.Phase = PodSucceeded →
        ∀ bundleData content gzr fs,
          i.KubeClient.GetLogs pod.Namespace pod.Name = .data bundleData →
          d.jsonUnmarshalContent bundleData = .ok content →
          d.gzipNewReader content = .ok gzr →
          d.tarfsNew gzr = .ok fs →
          PersistentVolumeClaim.Unpack i d bundle
            = (.ok { Bundle := some fs, ResolvedSource := some bundle.Spec.Source,
                     State := State.StateUnpacked, Message := "" },
                [ensureCall i d bundle, Call.getLogs pod.Namespace pod.Name]))
      ∧ (pod.Status.Phase = PodFailed →
        (∀ logs, i.KubeClient.GetLogs pod.Namespace pod.Name = .data logs →
          PersistentVolumeClaim.Unpack i d bundle
            = (.error ("unpack failed: " ++ logs),
                [ensureCall i d bundle, Call.getLogs pod.Namespace pod.Name,
                  Call.delete pod.Namespace pod.Name]))
        ∧ ((∀ logs, i.KubeClient.GetLogs pod.Namespace pod.Name ≠ .data logs) →
          ∃ err, PersistentVolumeClaim.Unpack i d bundle
            = (.error err, [ensureCall i d bundle, Call.getLogs pod.Namespace pod.Name])))
      ∧ (pod.Status.Phase ≠ PodPending → pod.Status.Phase ≠ PodRunning →
          pod.Status.Phase ≠ PodSucceeded → pod.Status.Phase ≠ PodFailed →
        PersistentVolumeClaim.Unpack i d bundle
          = (.error ("unexpected pod phase: " ++ pod.Status.Phase),
              [ensureCall i d bundle, Call.delete pod.Namespace pod.Name])))
    ∧ (∀ ns name, Call.getLogs ns name ∈ (PersistentVolumeClaim.Unpack i d bundle).2 →
        ¬ (op = OperationResult.OperationResultCreated
            ∨ op = OperationResult.OperationResultUpdated ∨ pod.DeletionTimestamp ≠ none)
        ∧ (pod.Status.Phase = PodSucceeded ∨ pod.Status.Phase = PodFailed)) := by
  have hun := pvc_unpack_of_ensured i d bundle op pod hkind hclaim hens
  obtain ⟨hRP, hFP, hFR, hSP, hSR, hSF⟩ := podPhase_distinct
  refine ⟨?_, ?_, ?_⟩
  · intro hc
    rw [hun, if_pos hc]
  · intro hc
    rw [hun, if_neg hc]
    refine ⟨?_, ?_, ?_, ?_, ?_⟩
    · intro hp
      rw [if_pos hp]; rfl
    · intro hp
      rw [hp, if_neg hRP, if_pos rfl]
    · intro hp bundleData content gzr fs hlogs hjson hgzip htar
      rw [hp, if_neg hSP, if_neg hSR, if_neg hSF, if_pos rfl,
        succeededPodResult_ok i d bundle pod bundleData content gzr fs hlogs hjson hgzip htar]
      rfl
    · intro hp
      rw [hp, if_neg hFP, if_neg hFR, if_pos rfl]
      constructor
      · intro logs hlogs
        rw [failedPodResult_data i pod logs hlogs]
        rfl
      · intro hlogs
        obtain ⟨err, _, herr⟩ := failedPodResult_error i pod hlogs
        exact ⟨_, by rw [herr]; rfl⟩
    · intro h1 h2 h3 h4
      rw [if_neg h1, if_neg h2, if_neg h4, if_neg h3]
      rfl
  · intro ns name hmem
    rw [hun] at hmem
    by_cases hc : op = OperationResult.OperationResultCreated
        ∨ op = OperationResult.OperationResultUpdated ∨ pod.DeletionTimestamp ≠ none
    · rw [if_pos hc] at hmem
      simp [ensureCall] at hmem
    · refine ⟨hc, ?_⟩
      rw [if_neg hc] at hmem
      by_cases h1 : pod.Status.Phase = PodPending
      · rw [if_pos h1] at hmem
        simp [ensureCall] at hmem
      · rw [if_neg h1] at hmem
        by_cases h2 : pod.Status.Phase = PodRunning
        · rw [if_pos h2] at hmem
          simp [ensureCall] at hmem
        · rw [if_neg h2] at hmem
          by_cases h3 : pod.Status.Phase = PodFailed
          · exact Or.inr h3
          · rw [if_neg h3] at hmem
            by_cases h4 : pod.Status.Phase = PodSucceeded
            · exact Or.inl h4
            · rw [if_neg h4] at hmem
              simp [ensureCall, PersistentVolumeClaim.handleUnexpectedPod] at hmem

/-- Witness of C4 as amended: the sample worker, found unchanged in phase Running. -/
theorem pvc_unpack_outcome_witness :
    PersistentVolumeClaim.Unpack (Sample.pvc (.data "")) 
        (Sample.deps OperationResult.OperationResultNone "Running" none) Sample.pvcBundle
      = (.ok { Bundle := none, ResolvedSource := none, State := State.StateUnpacking,
               Message := "" },
          [Call.createOrRecreate "rukpak-system" Sample.podName]) :=
  (pvc_unpack_outcome (Sample.pvc (.data ""))
    (Sample.deps OperationResult.OperationResultNone "Running" none) Sample.pvcBundle
    OperationResult.OperationResultNone _ rfl (by decide) rfl).2.1 (by decide) |>.2.1 rfl

/-- C4, the claim as stated fails: a worker found unchanged in phase Failed whose log
stream cannot be opened makes `Unpack` return an error without any delete of the
worker. -/
theorem pvc_unpack_failed_without_logs :
    PersistentVolumeClaim.Unpack (Sample.pvc (.openError "connection refused"))
        (Sample.deps OperationResult.OperationResultNone "Failed" none) Sample.pvcBundle
      = (.error "unpack failed: failed to retrieve failed pod logs: get pod logs: connection refused",
          [Call.createOrRecreate "rukpak-system" Sample.podName,
           Call.getLogs "rukpak-system" Sample.podName])
    ∧ Call.delete "rukpak-system" Sample.podName ∉
        (PersistentVolumeClaim.Unpack (Sample.pvc (.openError "connection refused"))
          (Sample.deps OperationResult.OperationResultNone "Failed" none) Sample.pvcBundle).2 := by
  refine ⟨rfl, ?_⟩
  decide

/-- C6, as amended. For a worker found unchanged and not marked for deletion: in a phase
other than Pending, Running, Succeeded and Failed, `Unpack` issues a delete of the
worker and fails with the unexpected-phase error; in phase Succeeded with a log stream
that does not deliver a well-formed payload (the stream, the JSON envelope, the gzip
header or the archive fails), `Unpack` fails with an error and returns no Result, and
it issues no delete: the worker is retained. -/
theorem pvc_unpack_protocol_violation (i : PersistentVolumeClaim) (d : Deps) (bundle : Bundle)
    (op : OperationResult) (pod : Pod)
    (hkind : bundle.Spec.Source.SourceType = SourceTypePersistentVolumeClaim)
    (hclaim : bundle.Spec.Source.PersistentVolumeClaim ≠ none)
    (hens : ensured i d bundle = (.ok op, pod))
    (hc : ¬ (op = OperationResult.OperationResultCreated
        ∨ op = OperationResult.OperationResultUpdated ∨ pod.DeletionTimestamp ≠ none)) :
    (pod.Status.Phase ≠ PodPending → pod.Status.Phase ≠ PodRunning →
        pod.Status.Phase ≠ PodSucceeded → pod.Status.Phase ≠ PodFailed →
      PersistentVolumeClaim.Unpack i d bundle
        = (.error ("unexpected pod phase: " ++ pod.Status.Phase),
            [ensureCall i d bundle, Call.delete pod.Namespace pod.Name]))
    ∧ (pod.Status.Phase = PodSucceeded →
        (∀ bundleData content gzr fs,
          i.KubeClient.GetLogs pod.Namespace pod.Name = .data bundleData →
          d.jsonUnmarshalContent bundleData = .ok content →
          d.gzipNewReader content = .ok gzr → d.tarfsNew gzr ≠ .ok fs) →
      ∃ err, PersistentVolumeClaim.Unpack i d bundle
        = (.error err, [ensureCall i d bundle, Call.getLogs pod.Namespace pod.Name])) := by
  have hun := pvc_unpack_of_ensured i d bundle op pod hkind hclaim hens
  obtain ⟨hRP, hFP, hFR, hSP, hSR, hSF⟩ := podPhase_distinct
  rw [if_neg hc] at hun
  constructor
  · intro h1 h2 h3 h4
    rw [hun, if_neg h1, if_neg h2, if_neg h4, if_neg h3]
    rfl
  · intro hp hbad
    obtain ⟨err, herr⟩ := succeededPodResult_error i d bundle pod hbad
    refine ⟨err, ?_⟩
    rw [hun, hp, if_neg hSP, if_neg hSR, if_neg hSF, if_pos rfl, herr]
    rfl

/-- Witness of C6 as amended: the sample worker, found unchanged in the phase `Unknown`. -/
theorem pvc_unpack_protocol_violation_witness :
    PersistentVolumeClaim.Unpack (Sample.pvc (.data ""))
        (Sample.deps OperationResult.OperationResultNone "Unknown" none) Sample.pvcBundle
      = (.error "unexpected pod phase: Unknown",
          [Call.createOrRecreate "rukpak-system" Sample.podName,
           Call.delete "rukpak-system" Sample.podName]) :=
  (pvc_unpack_protocol_violation (Sample.pvc (.data ""))
    (Sample.deps OperationResult.OperationResultNone "Unknown" none) Sample.pvcBundle
    OperationResult.OperationResultNone _ rfl (by decide) rfl (by decide)).1
    (by decide) (by decide) (by decide) (by decide)

/-- C6, the claim as stated fails: a worker found unchanged in phase Succeeded whose log
stream is not a JSON envelope makes `Unpack` fail, and no delete of the worker is
issued. -/
theorem pvc_unpack_malformed_payload_keeps_worker :
    PersistentVolumeClaim.Unpack (Sample.pvc (.data "not json"))
        (Sample.deps OperationResult.OperationResultNone "Succeeded" none) Sample.pvcBundle
      = (.error "get bundle contents: parse bundle data: invalid character",
          [Call.createOrRecreate "rukpak-system" Sample.podName,
           Call.getLogs "rukpak-system" Sample.podName])
    ∧ Call.delete "rukpak-system" Sample.podName ∉
        (PersistentVolumeClaim.Unpack (Sample.pvc (.data "not json"))
          (Sample.deps OperationResult.OperationResultNone "Succeeded" none) Sample.pvcBundle).2 := by
  refine ⟨rfl, ?_⟩
  decide

/-- C7. For a worker that the ensure step found and left unchanged (neither created nor
updated, not marked for deletion), in phase Failed, whose log stream delivers the text
`L`: `Unpack` reads the logs, issues a delete of that worker and returns the error
`unpack failed: L`, which ends with `L` verbatim, and no Result. -/
theorem pvc_unpack_failed_logs (i : PersistentVolumeClaim) (d : Deps) (bundle : Bundle)
    (op : OperationResult) (pod : Pod) (L : String)
    (hkind : bundle.Spec.Source.SourceType = SourceTypePersistentVolumeClaim)
    (hclaim : bundle.Spec.Source.PersistentVolumeClaim ≠ none)
    (hens : ensured i d bundle = (.ok op, pod))
    (hcreated : op ≠ OperationResult.OperationResultCreated)
    (hupdated : op ≠ OperationResult.OperationResultUpdated)
    (hdel : pod.DeletionTimestamp = none)
    (hphase : pod.Status.Phase = PodFailed)
    (hlogs : i.KubeClient.GetLogs pod.Namespace pod.Name = .data L) :
    PersistentVolumeClaim.Unpack i d bundle
        = (.error ("unpack failed: " ++ L),
            [ensureCall i d bundle, Call.getLogs pod.Namespace pod.Name,
              Call.delete pod.Namespace pod.Name])
    ∧ Call.delete pod.Namespace pod.Name ∈ (PersistentVolumeClaim.Unpack i d bundle).2
    ∧ ∃ msg, (PersistentVolumeClaim.Unpack i d bundle).1 = .error msg
        ∧ L.data <:+ msg.data := by
  have hun := pvc_unpack_of_ensured i d bundle op pod hkind hclaim hens
  obtain ⟨hRP, hFP, hFR, hSP, hSR, hSF⟩ := podPhase_distinct
  have hc : ¬ (op = OperationResult.OperationResultCreated
      ∨ op = OperationResult.OperationResultUpdated ∨ pod.DeletionTimestamp ≠ none) := by
    simp [hcreated, hupdated, hdel]
  rw [if_neg hc, hphase, if_neg hFP, if_neg hFR, if_pos rfl,
    failedPodResult_data i pod L hlogs] at hun
  have hun2 : PersistentVolumeClaim.Unpack i d bundle
      = (.error ("unpack failed: " ++ L),
          [ensureCall i d bundle, Call.getLogs pod.Namespace pod.Name,
            Call.delete pod.Namespace pod.Name]) := hun
  refine ⟨hun2, ?_, ?_⟩
  · rw [hun2]; simp
  · rw [hun2]
    exact ⟨_, rfl, ⟨"unpack failed: ".data, (String.data_append _ _).symm⟩⟩

/-- Witness of C7: the sample worker in phase Failed with the log output
`extract: permission denied`. -/
theorem pvc_unpack_failed_logs_witness :
    PersistentVolumeClaim.Unpack (Sample.pvc (.data "extract: permission denied"))
        (Sample.deps OperationResult.OperationResultNone "Failed" none) Sample.pvcBundle
      = (.error "unpack failed: extract: permission denied",
          [Call.createOrRecreate "rukpak-system" Sample.podName,
           Call.getLogs "rukpak-system" Sample.podName,
           Call.delete "rukpak-system" Sample.podName]) :=
  (pvc_unpack_failed_logs (Sample.pvc (.data "extract: permission denied"))
    (Sample.deps OperationResult.OperationResultNone "Failed" none) Sample.pvcBundle
    OperationResult.OperationResultNone _ "extract: permission denied"
    rfl (by decide) rfl (by decide) (by decide) rfl rfl rfl).1

end Rukpak.Source

/-! ## `helm.HandleBundleDeployment` -/

namespace Rukpak.Helm

/-- C5, the code at configurations without a namespace: no configuration at all, an
object without members, an object whose `namespace` is the empty string.  In each case
`ParseConfig` succeeds, `getChart` is called and `HandleBundleDeployment` returns the
chart with no error. -/
theorem handleBundleDeployment_without_namespace :
    HandleBundleDeployment Sample.libs [] (Sample.bundleDeployment RawExtension.unset)
        = (.ok ({ Name := "chart" }, none), [Call.getChart])
    ∧ HandleBundleDeployment Sample.libs [] (Sample.bundleDeployment (RawExtension.json (JSON.object [])))
        = (.ok ({ Name := "chart" }, none), [Call.getChart])
    ∧ HandleBundleDeployment Sample.libs []
        (Sample.bundleDeployment (RawExtension.json (JSON.object [("namespace", JSON.string "")])))
        = (.ok ({ Name := "chart" }, none), [Call.getChart]) :=
  ⟨rfl, rfl, rfl⟩

end Rukpak.Helm

/-! ## Results in state Unpacked -/

namespace Rukpak.Source

theorem configMaps_unpack_ok (o : ConfigMaps) (rng : RangeOrder) (bundle : Bundle) (r : Result)
    (h : (ConfigMaps.Unpack o rng bundle).1 = .ok r) :
    ∃ entries tree,
      bundle.Spec.Source.ConfigMaps = some entries
      ∧ (unpackSources o rng entries [] []).1 = .ok tree
      ∧ r = { Bundle := some tree
              ResolvedSource := some { SourceType := SourceTypeConfigMaps
                                       ConfigMaps := some entries
                                       PersistentVolumeClaim := none }
              State := State.StateUnpacked
              Message := "" } := by
  unfold ConfigMaps.Unpack at h
  by_cases hkind : bundle.Spec.Source.SourceType ≠ SourceTypeConfigMaps
  · rw [if_pos hkind] at h
    cases h
  · rw [if_neg hkind] at h
    cases hentries : bundle.Spec.Source.ConfigMaps with
    | none =>
      rw [hentries] at h
      cases h
    | some entries =>
      rw [hentries] at h
      simp only at h
      cases hrun : unpackSources o rng entries [] [] with
      | mk res tr =>
        rw [hrun] at h
        cases res with
        | error e => cases h
        | ok tree =>
          simp only [BundleSource.DeepCopy, hentries] at h
          injection h with h
          exact ⟨entries, tree, rfl, by rw [hrun], h.symm⟩

theorem succeededPodResult_result (i : PersistentVolumeClaim) (d : Deps) (bundle : Bundle)
    (pod : Pod) (r : Result) (h : (i.succeededPodResult d bundle pod).1 = .ok r) :
    ∃ fs, r = { Bundle := some fs, ResolvedSource := some bundle.Spec.Source,
                State := State.StateUnpacked, Message := "" } := by
  unfold PersistentVolumeClaim.succeededPodResult at h
  cases hc : i.getBundleContents d pod with
  | mk res tr =>
    rw [hc] at h
    cases res with
    | error err => cases h
    | ok fs =>
      simp only [BundleSource.DeepCopy] at h
      injection h with h
      exact ⟨fs, h.symm⟩

theorem pvc_unpack_unpacked (i : PersistentVolumeClaim) (d : Deps) (bundle : Bundle) (r : Result)
    (h : (PersistentVolumeClaim.Unpack i d bundle).1 = .ok r)
    (hstate : r.State = State.StateUnpacked) :
    ∃ fs, r = { Bundle := some fs, ResolvedSource := some bundle.Spec.Source,
                State := State.StateUnpacked, Message := "" } := by
  by_cases hkind : bundle.Spec.Source.SourceType = SourceTypePersistentVolumeClaim
  · by_cases hclaim : bundle.Spec.Source.PersistentVolumeClaim = none
    · simp only [PersistentVolumeClaim.Unpack, hkind, hclaim, ne_eq, not_true_eq_false,
        if_false, if_true] at h
      cases h
    · cases hens : ensured i d bundle with
      | mk res pod =>
        cases res with
        | error err =>
          rw [pvc_unpack_of_ensure_error i d bundle err pod hkind hclaim hens] at h
          cases h
        | ok op =>
          rw [pvc_unpack_of_ensured i d bundle op pod hkind hclaim hens] at h
          split_ifs at h
          all_goals first
            | exact succeededPodResult_result i d bundle pod r h
            | (injection h with h; subst h; cases hstate)
  · simp only [PersistentVolumeClaim.Unpack, hkind, ne_eq, not_false_eq_true, if_true] at h
    cases h

/-- C8. Every Result that `ConfigMaps.Unpack` returns has state Unpacked, and every Result
in state Unpacked that either resolver returns carries its content (a tree, never the
unset content) and its resolved source (set: for `ConfigMaps.Unpack` the source of kind
ConfigMaps with the entry list of the bundle, for `PersistentVolumeClaim.Unpack` the
source of the bundle). This holds for every bundle the resolver accepts, so also for an
entry list without entries and for config maps without data, where the tree that is
carried holds no file. -/
theorem unpacked_result_content (o : ConfigMaps) (rng : RangeOrder) (i : PersistentVolumeClaim)
    (d : Deps) (bundle : Bundle) (r : Result) :
    ((ConfigMaps.Unpack o rng bundle).1 = .ok r →
      r.State = State.StateUnpacked
      ∧ (∃ tree, r.Bundle = some tree)
      ∧ (∃ entries, bundle.Spec.Source.ConfigMaps = some entries
          ∧ r.ResolvedSource = some { SourceType := SourceTypeConfigMaps
                                      ConfigMaps := some entries
                                      PersistentVolumeClaim := none }))
    ∧ ((PersistentVolumeClaim.Unpack i d bundle).1 = .ok r → r.State = State.StateUnpacked →
      (∃ tree, r.Bundle = some tree) ∧ r.ResolvedSource = some bundle.Spec.Source) := by
  constructor
  · intro h
    obtain ⟨entries, tree, hentries, hrun, hr⟩ := configMaps_unpack_ok o rng bundle r h
    subst hr
    exact ⟨rfl, ⟨tree, rfl⟩, entries, hentries, rfl⟩
  · intro h hstate
    obtain ⟨fs, hr⟩ := pvc_unpack_unpacked i d bundle r h hstate
    subst hr
    exact ⟨⟨fs, rfl⟩, rfl⟩

/-- Witness of C8: the bundle whose entry list is present and has no entries, and the
worker of the sample bundle found in phase Succeeded with a well-formed payload. -/
theorem unpacked_result_content_witness :
    (ConfigMaps.Unpack Sample.configMaps id (Sample.cmBundle (some []))).1
      = .ok { Bundle := some []
              ResolvedSource := some { SourceType := SourceTypeConfigMaps
                                       ConfigMaps := some []
                                       PersistentVolumeClaim := none }
              State := State.StateUnpacked
              Message := "" }
    ∧ (∃ tree, (some [] : Option FS) = some tree)
    ∧ (PersistentVolumeClaim.Unpack (Sample.pvc (.data "payload"))
        (Sample.deps OperationResult.OperationResultNone "Succeeded" none) Sample.pvcBundle).1
      = .ok { Bundle := some [("manifests/a.yaml", "kind: X")]
              ResolvedSource := some Sample.pvcBundle.Spec.Source
              State := State.StateUnpacked
              Message := "" }
    ∧ (∃ tree, (some [("manifests/a.yaml", "kind: X")] : Option FS) = some tree) :=
  have h := unpacked_result_content Sample.configMaps id (Sample.pvc (.data "payload"))
    (Sample.deps OperationResult.OperationResultNone "Succeeded" none)
    (Sample.cmBundle (some []))
    { Bundle := some []
      ResolvedSource := some { SourceType := SourceTypeConfigMaps
                               ConfigMaps := some []
                               PersistentVolumeClaim := none }
      State := State.StateUnpacked
      Message := "" }
  have h2 := unpacked_result_content Sample.configMaps id (Sample.pvc (.data "payload"))
    (Sample.deps OperationResult.OperationResultNone "Succeeded" none)
    Sample.pvcBundle
    { Bundle := some [("manifests/a.yaml", "kind: X")]
      ResolvedSource := some Sample.pvcBundle.Spec.Source
      State := State.StateUnpacked
      Message := "" }
  ⟨rfl, (h.1 rfl).2.1, rfl, (h2.2 rfl rfl).1⟩

end Rukpak.Source

/-! ## The worker that `ensureUnpackPod` asks for -/

namespace Rukpak.Source

theorem filter_slash_of_not_mem (l : List Char) (h : '/' ∉ l) :
    l.filter (fun c => c = '/') = [] := by
  rw [List.filter_eq_nil_iff]
  intro c hc hcs
  have : c = '/' := by simpa using hcs
  exact h (this ▸ hc)

theorem takeWhile_append_slash (g v : List Char) (h : '/' ∉ g) :
    (g ++ '/' :: v).takeWhile (fun c => c ≠ '/') = g := by
  induction g with
  | nil => simp [List.takeWhile]
  | cons c rest ih =>
    have hc : c ≠ '/' := fun e => h (e ▸ List.mem_cons_self _ _)
    have hrest : '/' ∉ rest := fun hm => h (List.mem_cons_of_mem _ hm)
    rw [List.cons_append, List.takeWhile_cons_of_pos (by simpa using hc), ih hrest]

theorem dropWhile_append_slash (g v : List Char) (h : '/' ∉ g) :
    (g ++ '/' :: v).dropWhile (fun c => c ≠ '/') = '/' :: v := by
  induction g with
  | nil => simp [List.dropWhile]
  | cons c rest ih =>
    have hc : c ≠ '/' := fun e => h (e ▸ List.mem_cons_self _ _)
    have hrest : '/' ∉ rest := fun hm => h (List.mem_cons_of_mem _ hm)
    rw [List.cons_append, List.dropWhile_cons_of_pos (by simpa using hc), ih hrest]

/-- An API version that is a group, one `/` and a version is parsed into that group and
version and written back as it was. -/
theorem groupVersion_roundtrip (bundle : Bundle) (group version : String)
    (hg : group ≠ "") (hgs : '/' ∉ group.data) (hvs : '/' ∉ version.data)
    (hapi : bundle.APIVersion = group ++ "/" ++ version) :
    (GroupVersionKindOf bundle).GroupVersion.asString = group ++ "/" ++ version := by
  obtain ⟨g⟩ := group
  obtain ⟨v⟩ := version
  have hgne : g ≠ [] := fun e => hg (by rw [e])
  have hdata : (String.mk g ++ "/" ++ String.mk v).data = g ++ '/' :: v := by
    simp [String.data_append]
  have hcount : ((g ++ '/' :: v).filter fun c => c = '/').length = 1 := by
    rw [List.filter_append, List.filter_cons]
    simp [filter_slash_of_not_mem g hgs, filter_slash_of_not_mem v hvs]
  have hlen : ¬ (g ++ '/' :: v).length = 0 := by simp
  have hne : ¬ (String.mk g ++ "/" ++ String.mk v) = "/" := by
    intro e
    have := congrArg String.data e
    rw [hdata] at this
    have h2 : g ++ '/' :: v = ['/'] := this
    cases g with
    | nil => exact hgne rfl
    | cons c rest =>
      simp only [List.cons_append, List.cons.injEq] at h2
      have := h2.2
      simp at this
  have hparse : ParseGroupVersion (String.mk g ++ "/" ++ String.mk v)
      = .ok { Group := String.mk g, Version := String.mk v } := by
    unfold ParseGroupVersion
    rw [hdata]
    simp only [hlen, hne, or_self, if_false, hcount]
    rw [takeWhile_append_slash g v hgs, dropWhile_append_slash g v hgs]
    rfl
  unfold GroupVersionKindOf FromAPIVersionAndKind
  rw [hapi, hparse]
  simp only [GroupVersionKind.GroupVersion, GroupVersion.asString]
  have : (String.mk g).data.length > 0 := by
    show g.length > 0
    exact List.length_pos.2 hgne
  simp [this]

/-- C9, as amended. For a bundle with its volume claim set and every prior state `pod` of
the worker, the function that `ensureUnpackPod` hands to `util.CreateOrRecreate`
succeeds and leaves a worker with exactly one container; that container runs the
configured image with the fixed command `/unpack --bundle-dir /bundle` and mounts the
volume `bundle` at `/bundle`; the only volume of the worker is `bundle`, the declared
volume claim, read-only; service-account token auto-mounting is disabled, the restart
policy is Never, and the single owner reference is the controller reference to the
Bundle: its kind, name and UID, the controller flag set, and as API version the group
and version parsed from the API version of the Bundle, which is the API version of the
Bundle itself when that is a group, one `/` and a version. -/
theorem ensureUnpackPod_spec (i : PersistentVolumeClaim) (d : Deps) (bundle : Bundle)
    (claim : PersistentVolumeClaimSource) (pod : Pod)
    (hclaim : bundle.Spec.Source.PersistentVolumeClaim = some claim) :
    ∃ pod1 c,
      ensureUnpackPodMutate i d bundle pod = .ok pod1
      ∧ pod1.Spec.Containers = [c]
      ∧ c.Image = i.UnpackImage
      ∧ c.Command = ["/unpack", "--bundle-dir", "/bundle"]
      ∧ c.VolumeMounts = [{ Name := "bundle", MountPath := "/bundle", ReadOnly := false }]
      ∧ pod1.Spec.Volumes
          = [{ Name := "bundle"
               PersistentVolumeClaim := some { ClaimName := claim.Name, ReadOnly := true } }]
      ∧ pod1.Spec.AutomountServiceAccountToken = some false
      ∧ pod1.Spec.RestartPolicy = RestartPolicyNever
      ∧ pod1.OwnerReferences
          = [{ APIVersion := (GroupVersionKindOf bundle).GroupVersion.asString
               Kind := bundle.Kind, Name := bundle.Name, UID := bundle.UID
               Controller := some true, BlockOwnerDeletion := some true }]
      ∧ (∀ group version : String,
          group ≠ "" → '/' ∉ group.data → '/' ∉ version.data →
          bundle.APIVersion = group ++ "/" ++ version →
          (GroupVersionKindOf bundle).GroupVersion.asString = bundle.APIVersion) := by
  have hkind : (GroupVersionKindOf bundle).Kind = bundle.Kind := by
    unfold GroupVersionKindOf FromAPIVersionAndKind
    cases ParseGroupVersion bundle.APIVersion <;> rfl
  have hapi : ∀ group version : String,
      group ≠ "" → '/' ∉ group.data → '/' ∉ version.data →
      bundle.APIVersion = group ++ "/" ++ version →
      (GroupVersionKindOf bundle).GroupVersion.asString = bundle.APIVersion :=
    fun group version hg hgs hvs hapi => by
      rw [hapi]
      exact groupVersion_roundtrip bundle group version hg hgs hvs hapi
  unfold ensureUnpackPodMutate
  simp only [hclaim]
  refine ⟨_, _, rfl, rfl, rfl, rfl, rfl, rfl, rfl, rfl, ?_, hapi⟩
  simp only [NewControllerRef, hkind]

/-- Witness of C9 as amended: the sample bundle and a prior pod with two containers, another
restart policy and another volume. -/
theorem ensureUnpackPod_spec_witness :
    ∃ pod1 c,
      ensureUnpackPodMutate (Sample.pvc (.data ""))
          (Sample.deps OperationResult.OperationResultNone "" none) Sample.pvcBundle
          Sample.strayPod = .ok pod1
      ∧ pod1.Spec.Containers = [c]
      ∧ c.Image = "quay.io/operator-framework/rukpak:latest"
      ∧ c.Command = ["/unpack", "--bundle-dir", "/bundle"]
      ∧ c.VolumeMounts = [{ Name := "bundle", MountPath := "/bundle", ReadOnly := false }]
      ∧ pod1.Spec.Volumes
          = [{ Name := "bundle"
               PersistentVolumeClaim := some { ClaimName := "my-claim", ReadOnly := true } }]
      ∧ pod1.Spec.AutomountServiceAccountToken = some false
      ∧ pod1.Spec.RestartPolicy = "Never"
      ∧ pod1.OwnerReferences
          = [{ APIVersion := "core.rukpak.io/v1alpha1", Kind := "Bundle", Name := "b",
               UID := "u1", Controller := some true, BlockOwnerDeletion := some true }] :=
  match ensureUnpackPod_spec (Sample.pvc (.data ""))
      (Sample.deps OperationResult.OperationResultNone "" none) Sample.pvcBundle
      { Name := "my-claim" } Sample.strayPod rfl with
  | ⟨pod1, c, h1, h2, h3, h4, h5, h6, h7, h8, h9, _⟩ =>
    ⟨pod1, c, h1, h2, h3, h4, h5, h6, h7, h8, h9⟩

/-- C9, the claim as stated fails: the command of the container of the worker is
`/unpack --bundle-dir /bundle`; it is not `extract --bundle-dir /bundle`. -/
theorem ensureUnpackPod_command_is_not_extract :
    ∃ pod1,
      ensureUnpackPodMutate (Sample.pvc (.data ""))
          (Sample.deps OperationResult.OperationResultNone "" none) Sample.pvcBundle {}
        = .ok pod1
      ∧ pod1.Spec.Containers.map (fun c => c.Command) = [["/unpack", "--bundle-dir", "/bundle"]]
      ∧ ∀ c ∈ pod1.Spec.Containers, c.Command ≠ ["extract", "--bundle-dir", "/bundle"] := by
  refine ⟨_, rfl, rfl, ?_⟩
  decide

/-! ## Bundles the resolvers do not accept -/

/-- C10. A bundle whose declared source kind is not the resolver's own kind makes
`ConfigMaps.Unpack` and `PersistentVolumeClaim.Unpack` fail with the error
`bundle source type <q> not supported`, where `<q>` is the declared kind as the verb
`%q` writes it: for a kind of ASCII characters, the kind between double quotes with its
double quotes, backslashes and control characters escaped. A bundle of the resolver's
kind whose source configuration of that kind is unset makes them fail with the error
`... configuration is unset`. In all four cases no Result is returned and no call is
made: no config map is read, no worker is created, updated or deleted. -/
theorem unpack_rejects_kind_and_unset (o : ConfigMaps) (rng : RangeOrder)
    (i : PersistentVolumeClaim) (d : Deps) (bundle : Bundle) :
    (bundle.Spec.Source.SourceType ≠ SourceTypeConfigMaps →
      ∃ q, ConfigMaps.Unpack o rng bundle
          = (.error ("bundle source type " ++ q ++ " not supported"), [])
        ∧ (isASCII bundle.Spec.Source.SourceType → q = quote bundle.Spec.Source.SourceType))
    ∧ (bundle.Spec.Source.SourceType = SourceTypeConfigMaps →
        bundle.Spec.Source.ConfigMaps = none →
      ConfigMaps.Unpack o rng bundle
        = (.error "bundle source configmaps configuration is unset", []))
    ∧ (bundle.Spec.Source.SourceType ≠ SourceTypePersistentVolumeClaim →
      ∃ q, PersistentVolumeClaim.Unpack i d bundle
          = (.error ("bundle source type " ++ q ++ " not supported"), [])
        ∧ (isASCII bundle.Spec.Source.SourceType → q = quote bundle.Spec.Source.SourceType))
    ∧ (bundle.Spec.Source.SourceType = SourceTypePersistentVolumeClaim →
        bundle.Spec.Source.PersistentVolumeClaim = none →
      PersistentVolumeClaim.Unpack i d bundle
        = (.error "bundle source persistentVolumeClaim configuration is unset", [])) := by
  refine ⟨?_, ?_, ?_, ?_⟩
  · intro hkind
    refine ⟨quote bundle.Spec.Source.SourceType, ?_, fun _ => rfl⟩
    simp only [ConfigMaps.Unpack, hkind, ne_eq, not_false_eq_true, if_true]
  · intro hkind hunset
    simp only [ConfigMaps.Unpack, hkind, hunset, ne_eq, not_true_eq_false, if_false]
  · intro hkind
    refine ⟨quote bundle.Spec.Source.SourceType, ?_, fun _ => rfl⟩
    simp only [PersistentVolumeClaim.Unpack, hkind, ne_eq, not_false_eq_true, if_true]
  · intro hkind hunset
    simp only [PersistentVolumeClaim.Unpack, hkind, hunset, ne_eq, not_true_eq_false, if_false,
      if_true]

/-- Witness of C10: the sample bundle of kind PersistentVolumeClaim, a kind of ASCII
characters, is not accepted by `ConfigMaps.Unpack`, and the declared kind stands between
double quotes in the error; the sample bundle of kind ConfigMaps without an entry list
is not accepted either. -/
theorem unpack_rejects_kind_and_unset_witness :
    (∃ q, ConfigMaps.Unpack Sample.configMaps id Sample.pvcBundle
        = (.error ("bundle source type " ++ q ++ " not supported"), [])
      ∧ q = quote "PersistentVolumeClaim")
    ∧ (quote "PersistentVolumeClaim").data
      = Char.ofNat 34 :: ("PersistentVolumeClaim".data ++ [Char.ofNat 34])
    ∧ ConfigMaps.Unpack Sample.configMaps id (Sample.cmBundle none)
      = (.error "bundle source configmaps configuration is unset", []) :=
  have h := unpack_rejects_kind_and_unset Sample.configMaps id (Sample.pvc (.data ""))
    (Sample.deps OperationResult.OperationResultNone "" none) Sample.pvcBundle
  have h2 := unpack_rejects_kind_and_unset Sample.configMaps id (Sample.pvc (.data ""))
    (Sample.deps OperationResult.OperationResultNone "" none) (Sample.cmBundle none)
  have hascii : isASCII Sample.pvcBundle.Spec.Source.SourceType := by
    unfold isASCII
    decide
  ⟨match h.1 (by decide) with
    | ⟨q, hq, hquote⟩ => ⟨q, hq, hquote hascii⟩,
    by decide, h2.2.1 rfl rfl⟩

end Rukpak.Source

/-! ## `ensureUnpackPod`: setting the fields twice -/

namespace Rukpak.Source

theorem ensureUnpackPodMutate_of_not_one (i : PersistentVolumeClaim) (d : Deps) (bundle : Bundle)
    (claim : PersistentVolumeClaimSource) (pod : Pod)
    (hclaim : bundle.Spec.Source.PersistentVolumeClaim = some claim)
    (hlen : pod.Spec.Containers.length ≠ 1) :
    ensureUnpackPodMutate i d bundle pod
      = .ok { pod with
          Labels := GoMap.set [(d.CoreOwnerKindKey, bundle.Kind)] d.CoreOwnerNameKey bundle.Name
          OwnerReferences := [NewControllerRef bundle (GroupVersionKindOf bundle)]
          Spec := { AutomountServiceAccountToken := some false
                    RestartPolicy := RestartPolicyNever
                    Containers := [{ Name := d.imageBundleUnpackContainerName
                                     Image := i.UnpackImage
                                     ImagePullPolicy := PullIfNotPresent
                                     Command := ["/unpack", "--bundle-dir", "/bundle"]
                                     Args := []
                                     VolumeMounts := [{ Name := "bundle", MountPath := "/bundle" }] }]
                    Volumes := [{ Name := "bundle"
                                  PersistentVolumeClaim :=
                                    some { ClaimName := claim.Name, ReadOnly := true } }] } } := by
  obtain ⟨name, ns, labels, owners, del, spec, status⟩ := pod
  obtain ⟨auto, restart, containers, volumes⟩ := spec
  unfold ensureUnpackPodMutate
  simp only [hclaim]
  match containers, hlen with
  | [], _ => rfl
  | [c], h => exact absurd rfl h
  | _ :: _ :: _, _ => rfl

/-- C12. For a bundle with its volume claim set, the function that `ensureUnpackPod` hands
to `util.CreateOrRecreate` is idempotent: applied to any prior worker `p` it succeeds,
and applied to its own result it returns that result unchanged. For any two prior
workers whose container count is not one, the resulting labels, owner references,
restart policy, automount flag, container list and volume list are identical. -/
theorem ensureUnpackPod_idempotent (i : PersistentVolumeClaim) (d : Deps) (bundle : Bundle)
    (claim : PersistentVolumeClaimSource)
    (hclaim : bundle.Spec.Source.PersistentVolumeClaim = some claim) :
    (∀ p, ∃ p1, ensureUnpackPodMutate i d bundle p = .ok p1
        ∧ ensureUnpackPodMutate i d bundle p1 = .ok p1)
    ∧ (∀ p q, p.Spec.Containers.length ≠ 1 → q.Spec.Containers.length ≠ 1 →
        ∃ p1 q1, ensureUnpackPodMutate i d bundle p = .ok p1
          ∧ ensureUnpackPodMutate i d bundle q = .ok q1
          ∧ p1.Labels = q1.Labels
          ∧ p1.OwnerReferences = q1.OwnerReferences
          ∧ p1.Spec.RestartPolicy = q1.Spec.RestartPolicy
          ∧ p1.Spec.AutomountServiceAccountToken = q1.Spec.AutomountServiceAccountToken
          ∧ p1.Spec.Containers = q1.Spec.Containers
          ∧ p1.Spec.Volumes = q1.Spec.Volumes) := by
  constructor
  · intro p
    obtain ⟨name, ns, labels, owners, del, spec, status⟩ := p
    obtain ⟨auto, restart, containers, volumes⟩ := spec
    unfold ensureUnpackPodMutate
    simp only [hclaim]
    match containers with
    | [] => exact ⟨_, rfl, rfl⟩
    | [c] => exact ⟨_, rfl, rfl⟩
    | _ :: _ :: _ => exact ⟨_, rfl, rfl⟩
  · intro p q hp hq
    rw [ensureUnpackPodMutate_of_not_one i d bundle claim p hclaim hp,
      ensureUnpackPodMutate_of_not_one i d bundle claim q hclaim hq]
    exact ⟨_, _, rfl, rfl, rfl, rfl, rfl, rfl, rfl, rfl⟩

/-- Witness of C12: the sample bundle; the stray pod and the empty pod, neither with exactly
one container, get the same specification, and setting the fields of the result again
changes nothing. -/
theorem ensureUnpackPod_idempotent_witness :
    (∃ p1, ensureUnpackPodMutate (Sample.pvc (.data ""))
          (Sample.deps OperationResult.OperationResultNone "" none) Sample.pvcBundle
          Sample.strayPod = .ok p1
        ∧ ensureUnpackPodMutate (Sample.pvc (.data ""))
          (Sample.deps OperationResult.OperationResultNone "" none) Sample.pvcBundle p1 = .ok p1)
    ∧ ∃ p1 q1, ensureUnpackPodMutate (Sample.pvc (.data ""))
          (Sample.deps OperationResult.OperationResultNone "" none) Sample.pvcBundle
          Sample.strayPod = .ok p1
        ∧ ensureUnpackPodMutate (Sample.pvc (.data ""))
          (Sample.deps OperationResult.OperationResultNone "" none) Sample.pvcBundle {} = .ok q1
        ∧ p1.Labels = q1.Labels
        ∧ p1.OwnerReferences = q1.OwnerReferences
        ∧ p1.Spec.RestartPolicy = q1.Spec.RestartPolicy
        ∧ p1.Spec.AutomountServiceAccountToken = q1.Spec.AutomountServiceAccountToken
        ∧ p1.Spec.Containers = q1.Spec.Containers
        ∧ p1.Spec.Volumes = q1.Spec.Volumes :=
  have h := ensureUnpackPod_idempotent (Sample.pvc (.data ""))
    (Sample.deps OperationResult.OperationResultNone "" none) Sample.pvcBundle
    { Name := "my-claim" } rfl
  ⟨h.1 Sample.strayPod, h.2 Sample.strayPod {} (by decide) (by decide)⟩

/-! ## `failedPodResult`: logs that cannot be retrieved -/

/-- C14. For a worker that the ensure step found and left unchanged (neither created nor
updated, not marked for deletion), in phase Failed: when the retrieval of its logs
fails with the error `err`, `Unpack` returns the error
`unpack failed: failed to retrieve failed pod logs: err`, and the calls made are the
ensure step and the log read, with no delete of any pod; and in this phase a delete of
the worker is issued if and only if the logs were retrieved. -/
theorem pvc_unpack_failed_log_error (i : PersistentVolumeClaim) (d : Deps) (bundle : Bundle)
    (op : OperationResult) (pod : Pod)
    (hkind : bundle.Spec.Source.SourceType = SourceTypePersistentVolumeClaim)
    (hclaim : bundle.Spec.Source.PersistentVolumeClaim ≠ none)
    (hens : ensured i d bundle = (.ok op, pod))
    (hcreated : op ≠ OperationResult.OperationResultCreated)
    (hupdated : op ≠ OperationResult.OperationResultUpdated)
    (hdel : pod.DeletionTimestamp = none)
    (hphase : pod.Status.Phase = PodFailed) :
    ((∀ logs, i.KubeClient.GetLogs pod.Namespace pod.Name ≠ .data logs) →
      ∃ err, (i.getPodLogs pod).1 = .error err
        ∧ PersistentVolumeClaim.Unpack i d bundle
          = (.error ("unpack failed: failed to retrieve failed pod logs: " ++ err),
              [ensureCall i d bundle, Call.getLogs pod.Namespace pod.Name])
        ∧ ∀ ns name, Call.delete ns name ∉ (PersistentVolumeClaim.Unpack i d bundle).2)
    ∧ (Call.delete pod.Namespace pod.Name ∈ (PersistentVolumeClaim.Unpack i d bundle).2
        ↔ ∃ logs, i.KubeClient.GetLogs pod.Namespace pod.Name = .data logs) := by
  have hun := pvc_unpack_of_ensured i d bundle op pod hkind hclaim hens
  obtain ⟨hRP, hFP, hFR, hSP, hSR, hSF⟩ := podPhase_distinct
  have hc : ¬ (op = OperationResult.OperationResultCreated
      ∨ op = OperationResult.OperationResultUpdated ∨ pod.DeletionTimestamp ≠ none) := by
    simp [hcreated, hupdated, hdel]
  rw [if_neg hc, hphase, if_neg hFP, if_neg hFR, if_pos rfl] at hun
  have hfail : (∀ logs, i.KubeClient.GetLogs pod.Namespace pod.Name ≠ .data logs) →
      ∃ err, (i.getPodLogs pod).1 = .error err
        ∧ PersistentVolumeClaim.Unpack i d bundle
          = (.error ("unpack failed: failed to retrieve failed pod logs: " ++ err),
              [ensureCall i d bundle, Call.getLogs pod.Namespace pod.Name]) := by
    intro hlogs
    obtain ⟨err, hget, herr⟩ := failedPodResult_error i pod hlogs
    refine ⟨err, by rw [hget], ?_⟩
    rw [hun, herr]
    rfl
  constructor
  · intro hlogs
    obtain ⟨err, hget, hrun⟩ := hfail hlogs
    refine ⟨err, hget, hrun, ?_⟩
    intro ns name
    rw [hrun]
    simp [ensureCall]
  · constructor
    · intro hmem
      by_contra hno
      have hlogs : ∀ logs, i.KubeClient.GetLogs pod.Namespace pod.Name ≠ .data logs :=
        fun logs h => hno ⟨logs, h⟩
      obtain ⟨err, _, hrun⟩ := hfail hlogs
      rw [hrun] at hmem
      simp [ensureCall] at hmem
    · rintro ⟨logs, hlogs⟩
      rw [hun, failedPodResult_data i pod logs hlogs]
      simp

/-- Witness of C14: the sample worker in phase Failed whose log stream breaks while it is
read. -/
theorem pvc_unpack_failed_log_error_witness :
    ∃ err, ((Sample.pvc (.readError "stream reset")).getPodLogs
          { Name := Sample.podName, Namespace := "rukpak-system" }).1 = .error err
      ∧ PersistentVolumeClaim.Unpack (Sample.pvc (.readError "stream reset"))
          (Sample.deps OperationResult.OperationResultNone "Failed" none) Sample.pvcBundle
        = (.error ("unpack failed: failed to retrieve failed pod logs: " ++ err),
            [Call.createOrRecreate "rukpak-system" Sample.podName,
             Call.getLogs "rukpak-system" Sample.podName])
      ∧ ∀ ns name, Call.delete ns name ∉
          (PersistentVolumeClaim.Unpack (Sample.pvc (.readError "stream reset"))
            (Sample.deps OperationResult.OperationResultNone "Failed" none) Sample.pvcBundle).2 :=
  (pvc_unpack_failed_log_error (Sample.pvc (.readError "stream reset"))
    (Sample.deps OperationResult.OperationResultNone "Failed" none) Sample.pvcBundle
    OperationResult.OperationResultNone _ rfl (by decide) rfl (by decide) (by decide) rfl rfl).1
    (by intro logs h; cases h)

end Rukpak.Source

/-! ## Maps: reading after writing -/

namespace Rukpak

theorem GoMap.get?_set {V : Type} (m : GoMap V) (k k1 : String) (v : V) :
    GoMap.get? (GoMap.set m k v) k1 = if k = k1 then some v else GoMap.get? m k1 := by
  induction m with
  | nil => simp [GoMap.set, GoMap.get?]
  | cons kv rest ih =>
    obtain ⟨k0, v0⟩ := kv
    by_cases h0 : k0 = k
    · subst h0
      simp only [GoMap.set, if_true, GoMap.get?]
      by_cases h1 : k0 = k1 <;> simp [h1]
    · simp only [GoMap.set, h0, if_false, GoMap.get?, ih]
      by_cases h1 : k0 = k1
      · have : ¬ k = k1 := fun e => h0 (h1.trans e.symm)
        simp [h1, this]
      · simp [h1]

theorem GoMap.keys_set_subset {V : Type} (m : GoMap V) (k : String) (v : V) :
    ∀ x ∈ GoMap.keys (GoMap.set m k v), x = k ∨ x ∈ GoMap.keys m := by
  induction m with
  | nil => intro x hx; simpa [GoMap.set, GoMap.keys] using hx
  | cons kv rest ih =>
    obtain ⟨k0, v0⟩ := kv
    intro x hx
    by_cases h0 : k0 = k
    · simp only [GoMap.set, h0, if_true, GoMap.keys, List.map_cons, List.mem_cons] at hx ⊢
      rcases hx with h | h
      · exact Or.inl h
      · exact Or.inr (Or.inr h)
    · simp only [GoMap.set, h0, if_false, GoMap.keys, List.map_cons, List.mem_cons] at hx ⊢
      rcases hx with h | h
      · exact Or.inr (Or.inl h)
      · rcases ih x h with h2 | h2
        · exact Or.inl h2
        · exact Or.inr (Or.inr h2)

theorem GoMap.keys_set_nodup {V : Type} (m : GoMap V) (k : String) (v : V)
    (h : (GoMap.keys m).Nodup) : (GoMap.keys (GoMap.set m k v)).Nodup := by
  induction m with
  | nil => simp [GoMap.set, GoMap.keys]
  | cons kv rest ih =>
    obtain ⟨k0, v0⟩ := kv
    simp only [GoMap.keys, List.map_cons, List.nodup_cons] at h
    by_cases h0 : k0 = k
    · subst h0
      simp only [GoMap.set, if_true, GoMap.keys, List.map_cons, List.nodup_cons]
      exact h
    · simp only [GoMap.set, h0, if_false, GoMap.keys, List.map_cons, List.nodup_cons]
      refine ⟨?_, ih h.2⟩
      intro hmem
      rcases GoMap.keys_set_subset rest k v k0 hmem with h2 | h2
      · exact h0 h2
      · exact h.1 h2

theorem GoMap.mem_of_get? {V : Type} (m : GoMap V) (k : String) (v : V)
    (h : GoMap.get? m k = some v) : (k, v) ∈ m := by
  induction m with
  | nil => simp [GoMap.get?] at h
  | cons kv rest ih =>
    obtain ⟨k0, v0⟩ := kv
    by_cases h0 : k0 = k
    · simp only [GoMap.get?, h0, if_true, Option.some.injEq] at h
      subst h0 h
      exact List.mem_cons_self _ _
    · simp only [GoMap.get?, h0, if_false] at h
      exact List.mem_cons_of_mem _ (ih h)

theorem GoMap.foldl_set_keys_nodup (l acc : GoMap Bytes) (h : (GoMap.keys acc).Nodup) :
    (GoMap.keys (l.foldl (fun files kv => GoMap.set files kv.1 kv.2) acc)).Nodup := by
  induction l generalizing acc with
  | nil => exact h
  | cons kv rest ih => exact ih _ (GoMap.keys_set_nodup acc kv.1 kv.2 h)

theorem GoMap.foldl_set_keys_subset (l acc : GoMap Bytes) :
    ∀ x ∈ GoMap.keys (l.foldl (fun files kv => GoMap.set files kv.1 kv.2) acc),
      x ∈ GoMap.keys acc ∨ x ∈ GoMap.keys l := by
  induction l generalizing acc with
  | nil => intro x hx; exact Or.inl hx
  | cons kv rest ih =>
    intro x hx
    rcases ih _ x hx with h | h
    · rcases GoMap.keys_set_subset acc kv.1 kv.2 x h with h2 | h2
      · exact Or.inr (by simp [GoMap.keys, h2])
      · exact Or.inl h2
    · exact Or.inr (by
        simp only [GoMap.keys, List.map_cons, List.mem_cons]
        exact Or.inr h)

theorem GoMap.foldl_set_get?_of_not_mem (l acc : GoMap Bytes) (k : String)
    (h : k ∉ GoMap.keys l) :
    GoMap.get? (l.foldl (fun files kv => GoMap.set files kv.1 kv.2) acc) k = GoMap.get? acc k := by
  induction l generalizing acc with
  | nil => rfl
  | cons kv rest ih =>
    simp only [GoMap.keys, List.map_cons, List.mem_cons, not_or] at h
    simp only [List.foldl_cons]
    rw [ih _ h.2, GoMap.get?_set]
    have : ¬ kv.1 = k := fun e => h.1 e.symm
    simp [this]

theorem GoMap.foldl_set_get?_of_mem (l acc : GoMap Bytes) (k : String) (v : Bytes)
    (hnd : (GoMap.keys l).Nodup) (h : (k, v) ∈ l) :
    GoMap.get? (l.foldl (fun files kv => GoMap.set files kv.1 kv.2) acc) k = some v := by
  induction l generalizing acc with
  | nil => simp at h
  | cons kv rest ih =>
    simp only [GoMap.keys, List.map_cons, List.nodup_cons] at hnd
    simp only [List.foldl_cons]
    rcases List.mem_cons.1 h with h1 | h1
    · subst h1
      rw [GoMap.foldl_set_get?_of_not_mem rest _ k hnd.1, GoMap.get?_set]
      simp
    · exact ih _ hnd.2 h1

end Rukpak

/-! ## `ConfigMaps.Unpack`: a key in the textual and in the binary data -/

namespace Rukpak.Source

theorem mergeFiles_keys_nodup (rng : RangeOrder) (cm : ConfigMap) :
    (GoMap.keys (mergeFiles rng cm)).Nodup := by
  unfold mergeFiles
  exact GoMap.foldl_set_keys_nodup _ _ (GoMap.foldl_set_keys_nodup _ _ (by simp [GoMap.keys]))

theorem mergeFiles_keys_subset (rng : RangeOrder) (hrng : ∀ m, (rng m).Perm m) (cm : ConfigMap) :
    ∀ x ∈ GoMap.keys (mergeFiles rng cm), x ∈ GoMap.keys cm.Data ++ GoMap.keys cm.BinaryData := by
  intro x hx
  unfold mergeFiles at hx
  have hk : ∀ m : GoMap Bytes, ∀ y, y ∈ GoMap.keys (rng m) → y ∈ GoMap.keys m :=
    fun m y hy => ((hrng m).map Prod.fst).subset hy
  rcases GoMap.foldl_set_keys_subset _ _ x hx with h | h
  · rcases GoMap.foldl_set_keys_subset _ _ x h with h2 | h2
    · simp [GoMap.keys] at h2
    · exact List.mem_append_left _ (hk _ _ h2)
  · exact List.mem_append_right _ (hk _ _ h)

theorem mergeFiles_get?_binary (rng : RangeOrder) (hrng : ∀ m, (rng m).Perm m) (cm : ConfigMap)
    (hbin : (GoMap.keys cm.BinaryData).Nodup) (k : String) (b : Bytes)
    (h : (k, b) ∈ cm.BinaryData) : GoMap.get? (mergeFiles rng cm) k = some b := by
  unfold mergeFiles
  exact GoMap.foldl_set_get?_of_mem _ _ k b
    ((List.Perm.nodup_iff ((hrng cm.BinaryData).map Prod.fst)).2 hbin)
    ((hrng cm.BinaryData).mem_iff.2 h)

theorem mergeFiles_get?_data (rng : RangeOrder) (hrng : ∀ m, (rng m).Perm m) (cm : ConfigMap)
    (hdata : (GoMap.keys cm.Data).Nodup) (k : String) (d : Bytes)
    (h : (k, d) ∈ cm.Data) (hk : k ∉ GoMap.keys cm.BinaryData) :
    GoMap.get? (mergeFiles rng cm) k = some d := by
  unfold mergeFiles
  have hk2 : k ∉ GoMap.keys (rng cm.BinaryData) :=
    fun hmem => hk (((hrng cm.BinaryData).map Prod.fst).subset hmem)
  simp only
  rw [GoMap.foldl_set_get?_of_not_mem _ _ k hk2]
  exact GoMap.foldl_set_get?_of_mem _ _ k d
    ((List.Perm.nodup_iff ((hrng cm.Data).map Prod.fst)).2 hdata)
    ((hrng cm.Data).mem_iff.2 h)

theorem unpackFiles_get (o : ConfigMaps) (cmName dir : String) (l : List (String × Bytes))
    (seen : GoMap String) (fs : FS)
    (hnd : (l.map fun kv => Join dir kv.1).Nodup)
    (hseen : ∀ kv ∈ l, Join dir kv.1 ∉ GoMap.keys seen) :
    ∃ seen1 fs1, unpackFiles o cmName dir l seen fs = .ok (seen1, fs1)
      ∧ (∀ kv ∈ l, GoMap.get? fs1 (Join dir kv.1) = some kv.2)
      ∧ (∀ p, p ∉ (l.map fun kv => Join dir kv.1) → GoMap.get? fs1 p = GoMap.get? fs p) := by
  induction l generalizing seen fs with
  | nil => exact ⟨seen, fs, by simp [unpackFiles]⟩
  | cons kv rest ih =>
    obtain ⟨filename, data⟩ := kv
    simp only [List.map_cons, List.nodup_cons] at hnd
    have h1 : Join dir filename ∉ GoMap.keys seen := hseen _ (List.mem_cons_self _ _)
    have hfresh : ∀ kv ∈ rest, Join dir kv.1 ≠ Join dir filename := by
      intro kv hkv heq
      exact hnd.1 (List.mem_map.2 ⟨kv, hkv, heq⟩)
    obtain ⟨seen1, fs1, hrun, hin, hout⟩ := ih (GoMap.set seen (Join dir filename) cmName)
      (GoMap.set fs (Join dir filename) data) hnd.2
      (by
        intro kv hkv hmem
        rcases GoMap.keys_set_subset seen _ cmName _ hmem with h | h
        · exact hfresh kv hkv h
        · exact hseen kv (List.mem_cons_of_mem _ hkv) h)
    refine ⟨seen1, fs1, ?_, ?_, ?_⟩
    · simp only [unpackFiles, GoMap.get?_eq_none seen _ h1]
      exact hrun
    · intro kv hkv
      rcases List.mem_cons.1 hkv with h | h
      · subst h
        rw [hout _ hnd.1, GoMap.get?_set]
        simp
      · exact hin kv h
    · intro p hp
      simp only [List.map_cons, List.mem_cons, not_or] at hp
      rw [hout p hp.2, GoMap.get?_set]
      have : ¬ Join dir filename = p := fun e => hp.1 e.symm
      simp [this]

/-- An entry that is read, is immutable and whose own final paths are pairwise distinct
leaves every path that is not one of its own as it was. -/
theorem unpackSources_step_get (o : ConfigMaps) (rng : RangeOrder) (hrng : ∀ m, (rng m).Perm m)
    (e : ConfigMapSource) (rest : List ConfigMapSource) (fs : FS) (tr : List Call)
    (hfine : ∃ cm, o.Reader.Get o.ConfigMapNamespace e.ConfigMap.Name = .ok cm
      ∧ cm.Immutable = some true ∧ ((entryFiles o e).map Prod.fst).Nodup) :
    ∃ fs1, unpackSources o rng (e :: rest) fs tr
        = unpackSources o rng rest fs1 (tr ++ readCalls o [e])
      ∧ ∀ p, p ∉ (entryFiles o e).map Prod.fst → GoMap.get? fs1 p = GoMap.get? fs p := by
  obtain ⟨cm, hget, himm, hnd⟩ := hfine
  have hpaths := rangeFiles_paths_nodup o rng hrng e cm hget hnd
  obtain ⟨seen1, fs1, hrun, _, hout⟩ := unpackFiles_get o e.ConfigMap.Name (Clean e.Path)
    (rng (mergeFiles rng cm)) [] fs hpaths (by intro kv _; simp [GoMap.keys])
  have hkeys : (GoMap.keys (cm.Data ++ cm.BinaryData)).Nodup := by
    rw [entryFiles_of_read o e cm hget, List.map_map] at hnd
    have h2 : (List.map (fun k => Join (Clean e.Path) k)
        (GoMap.keys (cm.Data ++ cm.BinaryData))).Nodup := by
      simpa [GoMap.keys, List.map_map, Function.comp_def] using hnd
    exact List.Nodup.of_map _ h2
  have hperm := mergeFiles_perm rng hrng cm hkeys
  refine ⟨fs1, ?_, ?_⟩
  · simp only [unpackSources, hget, himm, hrun]
    simp [readCalls]
  · intro p hp
    apply hout
    intro hmem
    apply hp
    rw [entryFiles_of_read o e cm hget, List.map_map]
    obtain ⟨kv, hkv, hkvp⟩ := List.mem_map.1 hmem
    exact List.mem_map.2 ⟨kv, hperm.subset hkv, hkvp⟩

theorem unpackSources_suffix_get (o : ConfigMaps) (rng : RangeOrder)
    (hrng : ∀ m, (rng m).Perm m) (post : List ConfigMapSource) (fs : FS) (tr : List Call)
    (hfine : ∀ e ∈ post, ∃ cm, o.Reader.Get o.ConfigMapNamespace e.ConfigMap.Name = .ok cm
      ∧ cm.Immutable = some true ∧ ((entryFiles o e).map Prod.fst).Nodup) :
    ∃ tree, unpackSources o rng post fs tr = (.ok tree, tr ++ readCalls o post)
      ∧ ∀ p, (∀ e ∈ post, p ∉ (entryFiles o e).map Prod.fst) →
          GoMap.get? tree p = GoMap.get? fs p := by
  induction post generalizing fs tr with
  | nil => exact ⟨fs, by simp [unpackSources, readCalls]⟩
  | cons e rest ih =>
    obtain ⟨fs1, hstep, hkeep⟩ := unpackSources_step_get o rng hrng e rest fs tr
      (hfine e (List.mem_cons_self _ _))
    obtain ⟨tree, hrun, hget⟩ := ih fs1 (tr ++ readCalls o [e])
      (fun e1 he1 => hfine e1 (List.mem_cons_of_mem _ he1))
    refine ⟨tree, ?_, ?_⟩
    · rw [hstep, hrun]
      simp [readCalls]
    · intro p hp
      rw [hget p (fun e1 he1 => hp e1 (List.mem_cons_of_mem _ he1)),
        hkeep p (hp e (List.mem_cons_self _ _))]

/-- An entry whose config map is read and immutable, with well-formed maps and final
paths that differ for different keys: every file of the merged map is in the tree at
its joined path. -/
theorem unpackSources_step_merged (o : ConfigMaps) (rng : RangeOrder)
    (hrng : ∀ m, (rng m).Perm m)
    (e : ConfigMapSource) (rest : List ConfigMapSource) (fs : FS) (tr : List Call)
    (cm : ConfigMap)
    (hget : o.Reader.Get o.ConfigMapNamespace e.ConfigMap.Name = .ok cm)
    (himm : cm.Immutable = some true)
    (hinj : ∀ k1 ∈ GoMap.keys cm.Data ++ GoMap.keys cm.BinaryData,
      ∀ k2 ∈ GoMap.keys cm.Data ++ GoMap.keys cm.BinaryData,
        Join (Clean e.Path) k1 = Join (Clean e.Path) k2 → k1 = k2) :
    ∃ fs1, unpackSources o rng (e :: rest) fs tr
        = unpackSources o rng rest fs1 (tr ++ readCalls o [e])
      ∧ ∀ k v, GoMap.get? (mergeFiles rng cm) k = some v →
          GoMap.get? fs1 (Join (Clean e.Path) k) = some v := by
  have hknd : (GoMap.keys (rng (mergeFiles rng cm))).Nodup :=
    (List.Perm.nodup_iff ((hrng _).map Prod.fst)).2 (mergeFiles_keys_nodup rng cm)
  have hksub : ∀ x ∈ GoMap.keys (rng (mergeFiles rng cm)),
      x ∈ GoMap.keys cm.Data ++ GoMap.keys cm.BinaryData :=
    fun x hx => mergeFiles_keys_subset rng hrng cm x (((hrng _).map Prod.fst).subset hx)
  have hpaths : ((rng (mergeFiles rng cm)).map fun kv => Join (Clean e.Path) kv.1).Nodup := by
    have h1 : ((GoMap.keys (rng (mergeFiles rng cm))).map fun k => Join (Clean e.Path) k).Nodup :=
      List.Nodup.map_on (fun x hx y hy hxy => hinj x (hksub x hx) y (hksub y hy) hxy) hknd
    simpa [GoMap.keys, List.map_map, Function.comp_def] using h1
  obtain ⟨seen1, fs1, hrun, hin, _⟩ := unpackFiles_get o e.ConfigMap.Name (Clean e.Path)
    (rng (mergeFiles rng cm)) [] fs hpaths (by intro kv _; simp [GoMap.keys])
  refine ⟨fs1, ?_, ?_⟩
  · simp only [unpackSources, hget, himm, hrun]
    simp [readCalls]
  · intro k v hkv
    have hmem : (k, v) ∈ rng (mergeFiles rng cm) :=
      (hrng _).mem_iff.2 (GoMap.mem_of_get? _ k v hkv)
    exact hin (k, v) hmem

end Rukpak.Source

namespace Rukpak.Source

/-- C13. For a bundle of source kind ConfigMaps and an entry of it whose config map is read
and immutable, with textual and binary data that are maps (no key twice in one of them)
and final paths that differ for different keys, the other entries being read,
immutable, each with pairwise distinct final paths, and the later ones writing none of
the paths of this entry: `Unpack` succeeds with state Unpacked (no collision error),
and the tree holds at the joined path of a key of the binary data the binary payload,
also when the key is in the textual data too, and at the joined path of a key of the
textual data that is not in the binary data the textual bytes. -/
theorem configMaps_unpack_binary_overrides (o : ConfigMaps) (rng : RangeOrder) (bundle : Bundle)
    (pre post : List ConfigMapSource) (e : ConfigMapSource) (cm : ConfigMap)
    (hrng : ∀ m, (rng m).Perm m)
    (hkind : bundle.Spec.Source.SourceType = SourceTypeConfigMaps)
    (hentries : bundle.Spec.Source.ConfigMaps = some (pre ++ e :: post))
    (hget : o.Reader.Get o.ConfigMapNamespace e.ConfigMap.Name = .ok cm)
    (himm : cm.Immutable = some true)
    (hdata : (GoMap.keys cm.Data).Nodup)
    (hbin : (GoMap.keys cm.BinaryData).Nodup)
    (hinj : ∀ k1 ∈ GoMap.keys cm.Data ++ GoMap.keys cm.BinaryData,
      ∀ k2 ∈ GoMap.keys cm.Data ++ GoMap.keys cm.BinaryData,
        Join (Clean e.Path) k1 = Join (Clean e.Path) k2 → k1 = k2)
    (hpre : ∀ e1 ∈ pre, ∃ cm1, o.Reader.Get o.ConfigMapNamespace e1.ConfigMap.Name = .ok cm1
      ∧ cm1.Immutable = some true ∧ ((entryFiles o e1).map Prod.fst).Nodup)
    (hpost : ∀ e1 ∈ post, ∃ cm1, o.Reader.Get o.ConfigMapNamespace e1.ConfigMap.Name = .ok cm1
      ∧ cm1.Immutable = some true ∧ ((entryFiles o e1).map Prod.fst).Nodup)
    (hfree : ∀ e1 ∈ post, ∀ k ∈ GoMap.keys cm.Data ++ GoMap.keys cm.BinaryData,
      Join (Clean e.Path) k ∉ (entryFiles o e1).map Prod.fst) :
    ∃ tree,
      (ConfigMaps.Unpack o rng bundle).1
        = .ok { Bundle := some tree
                ResolvedSource := some { SourceType := SourceTypeConfigMaps
                                         ConfigMaps := some (pre ++ e :: post)
                                         PersistentVolumeClaim := none }
                State := State.StateUnpacked
                Message := "" }
      ∧ (∀ k b, (k, b) ∈ cm.BinaryData →
          GoMap.get? tree (Join (Clean e.Path) k) = some b)
      ∧ (∀ k d, (k, d) ∈ cm.Data → k ∉ GoMap.keys cm.BinaryData →
          GoMap.get? tree (Join (Clean e.Path) k) = some d) := by
  obtain ⟨fs1, h1⟩ := unpackSources_prefix o rng hrng pre (e :: post) [] [] hpre
  obtain ⟨fs2, h2, hmerged⟩ := unpackSources_step_merged o rng hrng e post fs1
    ([] ++ readCalls o pre) cm hget himm hinj
  obtain ⟨tree, h3, hkeep⟩ := unpackSources_suffix_get o rng hrng post fs2
    ([] ++ readCalls o pre ++ readCalls o [e]) hpost
  have hrun : unpackSources o rng (pre ++ e :: post) [] []
      = (.ok tree, [] ++ readCalls o pre ++ readCalls o [e] ++ readCalls o post) := by
    rw [h1, h2, h3]
  refine ⟨tree, ?_, ?_, ?_⟩
  · simp [ConfigMaps.Unpack, hkind, hentries, hrun, BundleSource.DeepCopy]
  · intro k b hkb
    have hk : k ∈ GoMap.keys cm.Data ++ GoMap.keys cm.BinaryData :=
      List.mem_append_right _ (List.mem_map.2 ⟨(k, b), hkb, rfl⟩)
    rw [hkeep _ (fun e1 he1 => hfree e1 he1 k hk)]
    exact hmerged k b (mergeFiles_get?_binary rng hrng cm hbin k b hkb)
  · intro k d hkd hnot
    have hk : k ∈ GoMap.keys cm.Data ++ GoMap.keys cm.BinaryData :=
      List.mem_append_left _ (List.mem_map.2 ⟨(k, d), hkd, rfl⟩)
    rw [hkeep _ (fun e1 he1 => hfree e1 he1 k hk)]
    exact hmerged k d (mergeFiles_get?_data rng hrng cm hdata k d hkd hnot)

/-- Witness of C13: the config map `cm-d` at `manifests`, between the entries `cm-a` at
`first` and `cm-b` at `last`. -/
theorem configMaps_unpack_binary_overrides_witness :
    ∃ tree,
      (ConfigMaps.Unpack Sample.configMapsBoth id
          (Sample.cmBundle (some ([Sample.entryA] ++ Sample.entryD :: [Sample.entryB])))).1
        = .ok { Bundle := some tree
                ResolvedSource := some { SourceType := SourceTypeConfigMaps
                                         ConfigMaps := some ([Sample.entryA] ++ Sample.entryD
                                                        :: [Sample.entryB])
                                         PersistentVolumeClaim := none }
                State := State.StateUnpacked
                Message := "" }
      ∧ (∀ k b, (k, b) ∈ [("a.yaml", "binary"), ("b.bin", "only binary")] →
          GoMap.get? tree (Join (Clean "manifests") k) = some b)
      ∧ (∀ k d, (k, d) ∈ [("a.yaml", "text"), ("t.yaml", "only text")] →
          k ∉ GoMap.keys [("a.yaml", "binary"), ("b.bin", "only binary")] →
          GoMap.get? tree (Join (Clean "manifests") k) = some d) :=
  configMaps_unpack_binary_overrides Sample.configMapsBoth id
    (Sample.cmBundle (some ([Sample.entryA] ++ Sample.entryD :: [Sample.entryB])))
    [Sample.entryA] [Sample.entryB] Sample.entryD
    { Data := [("a.yaml", "text"), ("t.yaml", "only text")]
      BinaryData := [("a.yaml", "binary"), ("b.bin", "only binary")]
      Immutable := some true }
    (fun m => List.Perm.refl m) rfl rfl rfl rfl (by decide) (by decide) (by decide)
    (by
      intro e1 he1
      rw [List.mem_singleton] at he1
      subst he1
      exact ⟨_, rfl, rfl, by decide⟩)
    (by
      intro e1 he1
      rw [List.mem_singleton] at he1
      subst he1
      exact ⟨_, rfl, rfl, by decide⟩)
    (by
      intro e1 he1
      rw [List.mem_singleton] at he1
      subst he1
      decide)

end Rukpak.Source

/-! ## `controllers.MapToDeployNamespace` -/

namespace Rukpak.Controllers

open Helm

theorem keyMatches_namespace_not_values (k : String)
    (h : keyMatches "namespace" k = true) : keyMatches "values" k = false := by
  simp only [keyMatches, decide_eq_true_eq] at h
  simp only [keyMatches, decide_eq_false_iff_not, not_or]
  rcases h with h | h
  · subst h
    decide
  · constructor
    · intro hk
      subst hk
      exact absurd h (by decide)
    · intro hk
      rw [h] at hk
      exact absurd hk (by decide)

theorem foldl_stringStep_none (vs : List JSON) : vs.foldl stringStep none = none := by
  induction vs with
  | nil => rfl
  | cons v rest ih => simpa [List.foldl_cons, stringStep] using ih

theorem fieldStringFrom_cons_skip (name : String) (init : Option String) (k : String) (v : JSON)
    (rest : List (String × JSON)) (h : (keyMatches name k && !isNull v) = false) :
    fieldStringFrom name init ((k, v) :: rest) = fieldStringFrom name init rest := by
  simp [fieldStringFrom, memberValues, List.filter_cons, h]

theorem fieldStringFrom_cons_take (name : String) (init : Option String) (k : String) (v : JSON)
    (rest : List (String × JSON)) (h : (keyMatches name k && !isNull v) = true) :
    fieldStringFrom name init ((k, v) :: rest)
      = fieldStringFrom name (stringStep init v) rest := by
  simp [fieldStringFrom, memberValues, List.filter_cons, h]

theorem fieldStringFrom_none (name : String) (fields : List (String × JSON)) :
    fieldStringFrom name none fields = none := by
  simp [fieldStringFrom, foldl_stringStep_none]

theorem decodeMembers_error (fields : List (String × JSON)) (pcfg : parseConfigFields)
    (e : String) : ∃ e1, (decodeMembers fields pcfg (some e)).2 = some e1 := by
  induction fields generalizing pcfg with
  | nil => exact ⟨e, rfl⟩
  | cons kv rest ih =>
    obtain ⟨k, v⟩ := kv
    simp only [decodeMembers]
    split_ifs
    · cases decodeStringField "namespace" pcfg.Namespace v with
      | ok s => exact ih _
      | error e2 => exact ih _
    · cases decodeStringField "values" pcfg.Values v with
      | ok s => exact ih _
      | error e2 => exact ih _
    · exact ih _

end Rukpak.Controllers

namespace Rukpak.Controllers

open Helm

theorem decodeMembers_ok_iff (fields : List (String × JSON)) (pcfg c : parseConfigFields) :
    decodeMembers fields pcfg none = (c, none)
      ↔ fieldStringFrom "namespace" (some pcfg.Namespace) fields = some c.Namespace
        ∧ fieldStringFrom "values" (some pcfg.Values) fields = some c.Values := by
  induction fields generalizing pcfg with
  | nil =>
    obtain ⟨n1, v1⟩ := pcfg
    obtain ⟨n2, v2⟩ := c
    simp [decodeMembers, fieldStringFrom, memberValues]
  | cons kv rest ih =>
    obtain ⟨k, v⟩ := kv
    have hbad : ∀ e, ¬ decodeMembers rest pcfg (some e) = (c, none) := by
      intro e h
      obtain ⟨e1, he1⟩ := decodeMembers_error rest pcfg e
      rw [h] at he1
      cases he1
    by_cases hn : keyMatches "namespace" k = true
    · have hv := keyMatches_namespace_not_values k hn
      have hskip : ∀ init, fieldStringFrom "values" init ((k, v) :: rest)
          = fieldStringFrom "values" init rest :=
        fun init => fieldStringFrom_cons_skip "values" init k v rest (by simp [hv])
      rw [hskip]
      cases v with
      | null =>
        rw [fieldStringFrom_cons_skip "namespace" _ k _ rest (by simp [isNull])]
        simp only [decodeMembers, hn, if_true, decodeStringField]
        exact ih pcfg
      | string s =>
        rw [fieldStringFrom_cons_take "namespace" _ k _ rest (by simp [isNull, hn])]
        simp only [decodeMembers, hn, if_true, decodeStringField, stringStep]
        exact ih { pcfg with Namespace := s }
      | bool b =>
        rw [fieldStringFrom_cons_take "namespace" _ k _ rest (by simp [isNull, hn])]
        simp only [decodeMembers, hn, if_true, decodeStringField, stringStep,
          fieldStringFrom_none, Option.orElse]
        constructor
        · intro h; exact absurd h (hbad _)
        · intro h; cases h.1
      | number n =>
        rw [fieldStringFrom_cons_take "namespace" _ k _ rest (by simp [isNull, hn])]
        simp only [decodeMembers, hn, if_true, decodeStringField, stringStep,
          fieldStringFrom_none, Option.orElse]
        constructor
        · intro h; exact absurd h (hbad _)
        · intro h; cases h.1
      | array items =>
        rw [fieldStringFrom_cons_take "namespace" _ k _ rest (by simp [isNull, hn])]
        simp only [decodeMembers, hn, if_true, decodeStringField, stringStep,
          fieldStringFrom_none, Option.orElse]
        constructor
        · intro h; exact absurd h (hbad _)
        · intro h; cases h.1
      | object members =>
        rw [fieldStringFrom_cons_take "namespace" _ k _ rest (by simp [isNull, hn])]
        simp only [decodeMembers, hn, if_true, decodeStringField, stringStep,
          fieldStringFrom_none, Option.orElse]
        constructor
        · intro h; exact absurd h (hbad _)
        · intro h; cases h.1
    · have hskip : ∀ init, fieldStringFrom "namespace" init ((k, v) :: rest)
          = fieldStringFrom "namespace" init rest :=
        fun init => fieldStringFrom_cons_skip "namespace" init k v rest (by simp [hn])
      rw [hskip]
      by_cases hv : keyMatches "values" k = true
      · cases v with
        | null =>
          rw [fieldStringFrom_cons_skip "values" _ k _ rest (by simp [isNull])]
          simp only [decodeMembers, hn, hv, if_true, if_false, decodeStringField]
          exact ih pcfg
        | string s =>
          rw [fieldStringFrom_cons_take "values" _ k _ rest (by simp [isNull, hv])]
          simp only [decodeMembers, hn, hv, if_true, if_false, decodeStringField, stringStep]
          exact ih { pcfg with Values := s }
        | bool b =>
          rw [fieldStringFrom_cons_take "values" _ k _ rest (by simp [isNull, hv])]
          simp only [decodeMembers, hn, hv, if_true, if_false, decodeStringField, stringStep,
            fieldStringFrom_none, Option.orElse]
          constructor
          · intro h; exact absurd h (hbad _)
          · intro h; cases h.2
        | number n =>
          rw [fieldStringFrom_cons_take "values" _ k _ rest (by simp [isNull, hv])]
          simp only [decodeMembers, hn, hv, if_true, if_false, decodeStringField, stringStep,
            fieldStringFrom_none, Option.orElse]
          constructor
          · intro h; exact absurd h (hbad _)
          · intro h; cases h.2
        | array items =>
          rw [fieldStringFrom_cons_take "values" _ k _ rest (by simp [isNull, hv])]
          simp only [decodeMembers, hn, hv, if_true, if_false, decodeStringField, stringStep,
            fieldStringFrom_none, Option.orElse]
          constructor
          · intro h; exact absurd h (hbad _)
          · intro h; cases h.2
        | object members =>
          rw [fieldStringFrom_cons_take "values" _ k _ rest (by simp [isNull, hv])]
          simp only [decodeMembers, hn, hv, if_true, if_false, decodeStringField, stringStep,
            fieldStringFrom_none, Option.orElse]
          constructor
          · intro h; exact absurd h (hbad _)
          · intro h; cases h.2
      · rw [fieldStringFrom_cons_skip "values" _ k v rest (by simp [hv])]
        simp only [decodeMembers, hn, hv, if_false]
        exact ih pcfg

theorem unmarshalValue_object_iff (fields : List (String × JSON)) (c : parseConfigFields) :
    unmarshalValue (JSON.object fields) = .ok c
      ↔ fieldString "namespace" fields = some c.Namespace
        ∧ fieldString "values" fields = some c.Values := by
  have h := decodeMembers_ok_iff fields {} c
  unfold fieldString
  rw [← h]
  have hu : unmarshalValue (JSON.object fields)
      = match decodeMembers fields {} none with
        | (pcfg, none) => .ok pcfg
        | (_, some e) => .error e := rfl
  rw [hu]
  cases decodeMembers fields {} none with
  | mk c1 err =>
    cases err with
    | none => simp only [Except.ok.injEq, Prod.mk.injEq, and_true]
    | some e => simp only [Prod.mk.injEq, reduceCtorEq, and_false]

end Rukpak.Controllers

namespace Rukpak.Controllers

open Helm

theorem mapToDeployNamespace_of_decoded (l : Libs) (bd : BundleDeployment) (c : parseConfigFields)
    (h : Unmarshal (MarshalJSON bd.Spec.Config) = .ok c) :
    MapToDeployNamespace l bd =
      if c.Namespace = "" then .error "install namespace not defined: set .spec.config.namespace"
      else if c.Values ≠ "" then
        match l.ReadValues c.Values with
        | .error err => .error err
        | .ok _ => .ok c.Namespace
      else .ok c.Namespace := by
  unfold MapToDeployNamespace parseConfig
  simp only [h]
  by_cases hn : c.Namespace = ""
  · simp [hn]
  · simp only [hn, if_false]
    by_cases hv : c.Values = ""
    · simp [hv]
    · simp only [ne_eq, hv, not_false_eq_true, if_true]
      cases l.ReadValues c.Values <;> rfl

theorem mapToDeployNamespace_of_decode_error (l : Libs) (bd : BundleDeployment) (e : String)
    (h : Unmarshal (MarshalJSON bd.Spec.Config) = .error e) :
    MapToDeployNamespace l bd = .error e := by
  unfold MapToDeployNamespace parseConfig
  simp only [h]

theorem mapToDeployNamespace_ok_iff_decoded (l : Libs) (bd : BundleDeployment) (ns : String) :
    MapToDeployNamespace l bd = .ok ns ↔
      ∃ c, Unmarshal (MarshalJSON bd.Spec.Config) = .ok c ∧ c.Namespace = ns ∧ ns ≠ ""
        ∧ (c.Values = "" ∨ ∃ vals, l.ReadValues c.Values = .ok vals) := by
  cases hu : Unmarshal (MarshalJSON bd.Spec.Config) with
  | error e =>
    rw [mapToDeployNamespace_of_decode_error l bd e hu]
    simp
  | ok c =>
    rw [mapToDeployNamespace_of_decoded l bd c hu]
    by_cases hn : c.Namespace = ""
    · simp only [hn, if_true, reduceCtorEq, false_iff, not_exists, not_and]
      intro c1 hc1 h1 h2
      cases hc1
      exact absurd (hn.symm.trans h1).symm h2
    · simp only [hn, if_false]
      by_cases hv : c.Values = ""
      · simp only [hv, ne_eq, not_true_eq_false, if_false, Except.ok.injEq]
        constructor
        · intro h
          exact ⟨c, rfl, h, fun e => hn (h.trans e), Or.inl hv⟩
        · rintro ⟨c1, hc1, h1, _, _⟩
          cases hc1
          exact h1
      · simp only [ne_eq, hv, not_false_eq_true, if_true]
        cases hr : l.ReadValues c.Values with
        | error e =>
          simp only [reduceCtorEq, false_iff, not_exists, not_and]
          intro c1 hc1 _ _ h3
          cases hc1
          rcases h3 with h3 | ⟨vals, h3⟩
          · exact hv h3
          · rw [hr] at h3
            cases h3
        | ok vals =>
          simp only [Except.ok.injEq]
          constructor
          · intro h
            exact ⟨c, rfl, h, fun e => hn (h.trans e), Or.inr ⟨vals, hr⟩⟩
          · rintro ⟨c1, hc1, h1, _, _⟩
            cases hc1
            exact h1

theorem unmarshal_ok_iff_object (re : RawExtension) (c : parseConfigFields)
    (hn : c.Namespace ≠ "") :
    Unmarshal (MarshalJSON re) = .ok c ↔
      ∃ fields, re = RawExtension.json (JSON.object fields)
        ∧ fieldString "namespace" fields = some c.Namespace
        ∧ fieldString "values" fields = some c.Values := by
  cases re with
  | unset =>
    simp only [MarshalJSON, Unmarshal, unmarshalValue, Except.ok.injEq, reduceCtorEq, false_and,
      exists_false, iff_false]
    intro h
    subst h
    exact hn rfl
  | malformed raw => simp [MarshalJSON, Unmarshal]
  | json v =>
    cases v with
    | object fields =>
      simp only [MarshalJSON, Unmarshal, unmarshalValue_object_iff, RawExtension.json.injEq,
        JSON.object.injEq]
      constructor
      · intro h
        exact ⟨fields, rfl, h⟩
      · rintro ⟨fields1, h1, h2⟩
        subst h1
        exact h2
    | null =>
      simp only [MarshalJSON, Unmarshal, unmarshalValue, Except.ok.injEq, RawExtension.json.injEq,
        reduceCtorEq, false_and, exists_false, iff_false]
      intro h
      subst h
      exact hn rfl
    | bool b => simp [MarshalJSON, Unmarshal, unmarshalValue]
    | number n => simp [MarshalJSON, Unmarshal, unmarshalValue]
    | string s => simp [MarshalJSON, Unmarshal, unmarshalValue]
    | array items => simp [MarshalJSON, Unmarshal, unmarshalValue]

/-- C11. `MapToDeployNamespace` returns the string `ns` exactly when the configuration
blob is a JSON object that gives the field `namespace` the non-empty string `ns` and
gives the field `values` a string that is empty (also when no member gives it a value)
or is read as chart values; and whenever the blob decodes without a namespace (no
configuration at all, `null`, or an object that gives `namespace` no string or the
empty string), it fails with `install namespace not defined: set
.spec.config.namespace`, whatever the string of `values` is and whatever reading it
as chart values would answer. -/
theorem mapToDeployNamespace_spec (l : Libs) (bd : BundleDeployment) :
    (∀ ns, MapToDeployNamespace l bd = .ok ns ↔
      ∃ fields v, bd.Spec.Config = RawExtension.json (JSON.object fields)
        ∧ fieldString "namespace" fields = some ns ∧ ns ≠ ""
        ∧ fieldString "values" fields = some v
        ∧ (v = "" ∨ ∃ vals, l.ReadValues v = .ok vals))
    ∧ ((bd.Spec.Config = RawExtension.unset
        ∨ bd.Spec.Config = RawExtension.json JSON.null
        ∨ ∃ fields v, bd.Spec.Config = RawExtension.json (JSON.object fields)
            ∧ fieldString "namespace" fields = some ""
            ∧ fieldString "values" fields = some v) →
      MapToDeployNamespace l bd
        = .error "install namespace not defined: set .spec.config.namespace") := by
  constructor
  · intro ns
    rw [mapToDeployNamespace_ok_iff_decoded]
    constructor
    · rintro ⟨c, hc, h1, h2, h3⟩
      have hne : c.Namespace ≠ "" := fun e => h2 (h1.symm.trans e)
      obtain ⟨fields, hre, hf1, hf2⟩ := (unmarshal_ok_iff_object bd.Spec.Config c hne).1 hc
      exact ⟨fields, c.Values, hre, by rw [hf1, h1], h2, hf2, h3⟩
    · rintro ⟨fields, v, hre, hf1, h2, hf2, h3⟩
      refine ⟨{ Namespace := ns, Values := v }, ?_, rfl, h2, h3⟩
      exact (unmarshal_ok_iff_object bd.Spec.Config { Namespace := ns, Values := v } h2).2
        ⟨fields, hre, hf1, hf2⟩
  · rintro (h | h | ⟨fields, v, h, hf1, hf2⟩)
    · rw [mapToDeployNamespace_of_decoded l bd {} (by rw [h]; rfl)]
      rfl
    · rw [mapToDeployNamespace_of_decoded l bd {} (by rw [h]; rfl)]
      rfl
    · have hu : Unmarshal (MarshalJSON bd.Spec.Config) = .ok { Namespace := "", Values := v } := by
        rw [h]
        exact (unmarshalValue_object_iff fields { Namespace := "", Values := v }).2 ⟨hf1, hf2⟩
      rw [mapToDeployNamespace_of_decoded l bd _ hu]
      rfl

/-- Witness of C11: the blob with the namespace `ns1` and no values gives `ns1`, also when
the key is written with a long s, which `encoding/json` folds to `s`; the blob with an
empty namespace and values that cannot be read gives the namespace error. -/
theorem mapToDeployNamespace_spec_witness :
    MapToDeployNamespace Sample.libsStrict
        (Sample.bundleDeployment (RawExtension.json (JSON.object [("namespace", JSON.string "ns1")])))
      = .ok "ns1"
    ∧ MapToDeployNamespace Sample.libsStrict
        (Sample.bundleDeployment (RawExtension.json (JSON.object [("nameſpace", JSON.string "ns1")])))
      = .ok "ns1"
    ∧ MapToDeployNamespace Sample.libsStrict
        (Sample.bundleDeployment (RawExtension.json
          (JSON.object [("namespace", JSON.string ""), ("values", JSON.string ": bad")])))
      = .error "install namespace not defined: set .spec.config.namespace" :=
  ⟨((mapToDeployNamespace_spec Sample.libsStrict
      (Sample.bundleDeployment
        (RawExtension.json (JSON.object [("namespace", JSON.string "ns1")])))).1 "ns1").2
      ⟨[("namespace", JSON.string "ns1")], "", rfl, by decide, by decide, by decide, Or.inl rfl⟩,
    ((mapToDeployNamespace_spec Sample.libsStrict
      (Sample.bundleDeployment
        (RawExtension.json (JSON.object [("nameſpace", JSON.string "ns1")])))).1 "ns1").2
      ⟨[("nameſpace", JSON.string "ns1")], "", rfl, by decide, by decide, by decide, Or.inl rfl⟩,
    (mapToDeployNamespace_spec Sample.libsStrict
      (Sample.bundleDeployment (RawExtension.json
        (JSON.object [("namespace", JSON.string ""), ("values", JSON.string ": bad")])))).2
      (Or.inr (Or.inr ⟨[("namespace", JSON.string ""), ("values", JSON.string ": bad")],
        ": bad", rfl, by decide, by decide⟩))⟩

end Rukpak.Controllers
